import Mathlib

/-! nsq-go `nsqlookup`: address derivation, sorting and resolvers

A shallow embedding of `nsqlookup/engine.go` and `nsqlookup/resolver.go`.

Conventions of the embedding:

* a Go `string` is a Lean `String`; the byte searches of the Go library look
  for ASCII bytes only (`':'`, `'['`, `']'`), which never occur inside a
  multi-byte UTF-8 sequence, so they are done on the list of characters;
* a Go `int` is an `Int`;
* a Go `[]string` is an `Option (List String)`: `none` is the `nil` slice,
  `some xs` a non-nil slice holding `xs`;
* a Go `error` is an `Option GoErr`: `none` is the `nil` error;
* `time.Time` and `time.Duration` are integers (nanoseconds), `0` being the
  zero `time.Time{}`.
-/

namespace Nsqlookup

/-! ## Standard library pieces used by the package -/

/-- Index of the first occurrence of `c` in `s` (`none` is Go's `-1`). -/
def indexByte : List Char → Char → Option Nat
  | [], _ => none
  | x :: xs, c => if x = c then some 0 else (indexByte xs c).map (· + 1)

/-- Index of the last occurrence of `c` in `s` (`none` is Go's `-1`). -/
def lastIndexByte : List Char → Char → Option Nat
  | [], _ => none
  | x :: xs, c =>
    match lastIndexByte xs c with
    | some i => some (i + 1)
    | none => if x = c then some 0 else none

/-- Go `strconv.Itoa`: the decimal text of an integer, with a leading `-` for
negative values. -/
def Itoa (i : Int) : String :=
  match i with
  | Int.ofNat n => Nat.repr n
  | Int.negSucc n => "-" ++ Nat.repr (n + 1)

/-- Go `net.JoinHostPort`: `host:port`, or `[host]:port` when the host
contains a colon. -/
def JoinHostPort (host port : String) : String :=
  if (indexByte host.data ':').isSome then
    "[" ++ host ++ "]:" ++ port
  else
    host ++ ":" ++ port

/-- Result of `net.SplitHostPort`: host, port and the text of the address
error, if any. -/
structure SplitResult where
  host : String
  port : String
  err : Option String
deriving DecidableEq, Repr

/-- The `addrErr` closure of `net.SplitHostPort`: empty host and port. -/
def addrErr (why : String) : SplitResult :=
  { host := "", port := "", err := some why }

/-- The tail of `net.SplitHostPort` after the host has been cut out: the
bracket checks from positions `j` and `k`, then the port after index `i`. -/
def splitTail (hostport : List Char) (host : List Char) (j k i : Nat) : SplitResult :=
  if (indexByte (hostport.drop j) '[').isSome then
    addrErr "unexpected '[' in address"
  else if (indexByte (hostport.drop k) ']').isSome then
    addrErr "unexpected ']' in address"
  else
    { host := String.mk host, port := String.mk (hostport.drop (i + 1)), err := none }

/-- Go `net.SplitHostPort`. -/
def SplitHostPort (hostport : String) : SplitResult :=
  let s := hostport.data
  match lastIndexByte s ':' with
  | none => addrErr "missing port in address"
  | some i =>
    if s.head? = some '[' then
      match indexByte s ']' with
      | none => addrErr "missing ']' in address"
      | some e =>
        if e + 1 = s.length then
          addrErr "missing port in address"
        else if e + 1 = i then
          splitTail s ((s.take e).drop 1) 1 (e + 1) i
        else if s.get? (e + 1) = some ':' then
          addrErr "too many colons in address"
        else
          addrErr "missing port in address"
    else
      let host := s.take i
      if (indexByte host ':').isSome then
        addrErr "too many colons in address"
      else
        splitTail s host 0 0 i

/-! ## `engine.go` -/

/-- The `NodeInfo` structure of `engine.go`. -/
structure NodeInfo where
  RemoteAddress : String
  Hostname : String
  BroadcastAddress : String
  TcpPort : Int
  HttpPort : Int
  Version : String
deriving DecidableEq, Repr

/-- The function `makeBroadcastAddress` of `engine.go`. -/
def makeBroadcastAddress (addr : String) (port : Int) : String :=
  let host := (SplitHostPort addr).host
  let host := if host.length = 0 then addr else host
  JoinHostPort host (Itoa port)

/-- The function `httpBroadcastAddress` of `engine.go`. -/
def httpBroadcastAddress (info : NodeInfo) : String :=
  makeBroadcastAddress info.BroadcastAddress info.HttpPort

/-- The function `tcpBroadcastAddress` of `engine.go`. -/
def tcpBroadcastAddress (info : NodeInfo) : String :=
  makeBroadcastAddress info.BroadcastAddress info.TcpPort

/-! ## `resolver.go`: values -/

/-- Go error values met by the package. -/
inductive GoErr where
  /-- The sentinel `context.Canceled`. -/
  | Canceled
  /-- The sentinel `context.DeadlineExceeded`. -/
  | DeadlineExceeded
  /-- An error carrying a text: `fmt.Errorf`, a transport failure, a JSON
  decoding failure. -/
  | errorf (text : String)
  /-- Two errors accumulated by `appendError`. -/
  | aggregate (first second : GoErr)
deriving DecidableEq, Repr

/-- A Go `error`: `none` is `nil`. -/
abbrev GoError := Option GoErr

/-- A Go `[]string`: `none` is the `nil` slice. -/
abbrev Strings := Option (List String)

/-- The elements of a slice (none for `nil`). -/
def elems (s : Strings) : List String :=
  match s with
  | none => []
  | some xs => xs

/-- Go `len` on a slice. -/
def len (s : Strings) : Nat := (elems s).length

/-- Go `append(s, t...)`: `s` itself when `t` brings nothing, otherwise a
non-nil slice with the elements of both. -/
def goAppend (s t : Strings) : Strings :=
  if len t = 0 then s else some (elems s ++ elems t)

/-- A `context.Context` by what the package observes of it: whether `Done` is
closed and what `Err` returns. -/
inductive Context where
  | active
  | canceled
  | deadlineExceeded
deriving DecidableEq, Repr

/-- Whether the channel `ctx.Done()` is closed. -/
def Context.Done : Context → Bool
  | .active => false
  | .canceled => true
  | .deadlineExceeded => true

/-- The value of `ctx.Err()`. -/
def Context.Err : Context → GoError
  | .active => none
  | .canceled => some GoErr.Canceled
  | .deadlineExceeded => some GoErr.DeadlineExceeded

/-- The `Resolver` interface: what `Resolve(ctx)` returns at one call; the
context argument may be `nil` (`none`). -/
abbrev Resolver := Option Context → Strings × GoError

/-! ## `Servers` -/

/-- The type `Servers` of `resolver.go`. -/
abbrev Servers := Strings

/-- The method `Servers.copy`. -/
def Servers.copy (r : Servers) : Strings :=
  if len r = 0 then none else some (elems r)

/-- The method `Servers.Resolve`. -/
def Servers.Resolve (r : Servers) : Resolver := fun ctx =>
  match ctx with
  | some c => if c.Done then (none, c.Err) else (Servers.copy r, none)
  | none => (Servers.copy r, none)

/-! ## `CachedResolver` -/

/-- The mutable fields of `CachedResolver` together with its `Timeout`. The
wrapped `Resolver` is passed to each call of `Resolve` instead, since what it
answers may differ from call to call. -/
structure CachedResolver where
  Timeout : Int
  exptime : Int
  servers : Servers
  error : GoError
deriving DecidableEq, Repr

/-- What one call of `CachedResolver.Resolve` produces: the returned pair, the
fields afterwards, and whether the wrapped resolver was called. -/
structure Resolved where
  res : Strings
  err : GoError
  next : CachedResolver
  invoked : Bool
deriving DecidableEq, Repr

/-- The method `CachedResolver.get`. -/
def CachedResolver.get (r : CachedResolver) (now : Int) : Strings × GoError × Bool :=
  if now < r.exptime then (Servers.copy r.servers, r.error, true) else (none, none, false)

/-- The method `CachedResolver.Resolve`, run without interleaving: `now` is the
value of `time.Now()`, `rslv` the wrapped resolver at this call. -/
def CachedResolver.Resolve (r : CachedResolver) (now : Int) (rslv : Resolver)
    (ctx : Option Context) : Resolved :=
  match r.get now with
  | (res, err, true) => { res := res, err := err, next := r, invoked := false }
  | (_, _, false) =>
    if now < r.exptime then
      { res := Servers.copy r.servers, err := r.error, next := r, invoked := false }
    else
      match rslv ctx with
      | (res, err) =>
        if err = some GoErr.Canceled then
          { res := res, err := err,
            next := { r with servers := none, error := none, exptime := 0 },
            invoked := true }
        else
          { res := res, err := err,
            next := { r with servers := res, error := err, exptime := now + r.Timeout },
            invoked := true }

/-- A run of successive `Resolve` calls, each with its clock reading, wrapped
resolver and context: the outcomes in order. -/
def CachedResolver.run (r : CachedResolver) :
    List (Int × Resolver × Option Context) → List Resolved
  | [] => []
  | (now, rslv, ctx) :: rest =>
    let o := r.Resolve now rslv ctx
    o :: CachedResolver.run o.next rest

/-- The fields after a run of calls. -/
def CachedResolver.after (r : CachedResolver) (outs : List Resolved) : CachedResolver :=
  match outs.getLast? with
  | none => r
  | some o => o.next

/-- Number of calls made to the wrapped resolver in a list of outcomes. -/
def invocations (outs : List Resolved) : Nat :=
  (outs.filter (fun o => o.invoked)).length

/-! ## `multiResolver` -/

/-- Modelled from the spec: `appendError` is called by `multiResolver.Resolve`
but defined in a file of the package that is not at hand. The spec says that
every failing child's error is accumulated into a combined error summarising
each child's error: the first error stands alone, a later one is joined to what
was accumulated, and a `nil` error adds nothing. -/
def appendError (errList : GoError) (err : GoError) : GoError :=
  match err with
  | none => errList
  | some e =>
    match errList with
    | none => some e
    | some l => some (GoErr.aggregate l e)

/-- The local type `result` of `multiResolver.Resolve`. -/
structure result where
  res : Strings
  err : GoError
deriving DecidableEq, Repr

/-- The type `multiResolver`. -/
structure multiResolver where
  list : List Resolver

/-- The function `MultiResolver`: the children are copied into a new list. -/
def MultiResolver (rslv : List Resolver) : multiResolver :=
  { list := rslv }

/-- The receive loop of `multiResolver.Resolve`: `n` receptions from the
channel, whose deliveries in order are `reschan`. A reception on a channel on
which nothing more is delivered never returns (`none`). The accumulation of
errors is the package function `appendError`, a parameter here. -/
def multiResolver.collect (appendErr : GoError → GoError → GoError) :
    Nat → List result → Strings → GoError → Option (Strings × GoError)
  | 0, _, res, err => some (res, err)
  | _ + 1, [], _, _ => none
  | n + 1, r :: reschan, res, err =>
    if r.err ≠ none then
      multiResolver.collect appendErr n reschan res (appendErr err r.err)
    else
      multiResolver.collect appendErr n reschan (goAppend res r.res) err

/-- The method `multiResolver.Resolve`. Each child runs in its own goroutine
and sends its result on the channel; `reschan` is the order in which the
results are delivered. -/
def multiResolver.Resolve (appendErr : GoError → GoError → GoError) (m : multiResolver)
    (ctx : Option Context) (reschan : List result) : Option (Strings × GoError) :=
  match m.list with
  | [] => some (none, none)
  | [r] => some (r ctx)
  | _ =>
    match multiResolver.collect appendErr m.list.length reschan none none with
    | none => none
    | some (res, err) => if len res ≠ 0 then some (res, none) else some (res, err)

/-- What the goroutines of `multiResolver.Resolve` send, in launch order. -/
def multiResolver.sent (m : multiResolver) (ctx : Option Context) : List result :=
  m.list.map (fun rslv => { res := (rslv ctx).1, err := (rslv ctx).2 })

/-! ## `ConsulResolver` -/

/-- Go `strings.Index` on the characters of the two strings (`none` is `-1`). -/
def stringsIndex : List Char → List Char → Option Nat
  | [], sub => if sub.isEmpty then some 0 else none
  | x :: xs, sub =>
    if sub.isPrefixOf (x :: xs) then some 0 else (stringsIndex xs sub).map (· + 1)

/-- An element of `checksResults`. -/
structure CheckResult where
  Node : String
deriving DecidableEq, Repr

/-- An element of `serviceResults`. -/
structure ServiceResult where
  Node : String
  Address : String
  ServiceAddress : String
  ServicePort : Int
deriving DecidableEq, Repr

/-- What the package reads of an `http.Response`; `Body` is what
`ioutil.ReadAll` gets from it. -/
structure Response where
  StatusCode : Int
  Status : String
  Body : String
deriving DecidableEq, Repr

/-- An `http.RoundTripper` during one call of `Resolve`: the answer to a GET
request under a context, a response or a transport error. The request is given
by the URL it carries, as `URL.String()` renders it. -/
abbrev RoundTripper := Option Context → String → Except GoErr Response

/-- The library around `ConsulResolver` that is not part of the package:
`http.DefaultTransport`; what `http.NewRequest("GET", text, nil)` makes of a URL
text, either an error or the request, given by the URL that it carries after
parsing (rendered again, which may escape what the text left unescaped); and
what `encoding/json` decodes from a non-empty body into each of the two local
slices. -/
structure Library where
  DefaultTransport : RoundTripper
  NewRequest : String → Except GoErr String
  decodeChecks : String → Except GoErr (List CheckResult)
  decodeServices : String → Except GoErr (List ServiceResult)

/-- The error of `json.Unmarshal` on an input of length zero. -/
def errUnexpectedEnd : GoErr := GoErr.errorf "unexpected end of JSON input"

/-- Go `json.Unmarshal(data, &v)`: an input of length zero (the `nil` slice
included) is a syntax error, any other input is decoded. -/
def jsonUnmarshal {α : Type} (decode : String → Except GoErr α) (data : Option String) :
    Except GoErr α :=
  match data with
  | none => Except.error errUnexpectedEnd
  | some body => if body.length = 0 then Except.error errUnexpectedEnd else decode body

/-- The type `ConsulResolver`; `Transport` is `none` for a `nil` transport. -/
structure ConsulResolver where
  Address : String
  Service : String
  Transport : Option RoundTripper

/-- The catalog address after the two defaulting steps shared by `Resolve` and
`getConsul`. -/
def ConsulResolver.address (r : ConsulResolver) : String :=
  let address := if r.Address.length = 0 then "http://localhost:8500" else r.Address
  if (stringsIndex address.data "://".data).isNone then "http://" ++ address else address

/-- The service name after defaulting in `Resolve`. -/
def ConsulResolver.service (r : ConsulResolver) : String :=
  if r.Service.length = 0 then "nsqlookupd" else r.Service

/-- The error made by `fmt.Errorf` in `getConsul` for a status that is neither
200 nor 404. -/
def consulStatusError (endpoint address : String) (res : Response) : GoErr :=
  GoErr.errorf ("error looking up " ++ endpoint ++ " on consul agent at " ++ address ++ ": " ++
    Itoa res.StatusCode ++ " " ++ res.Status)

/-- The method `ConsulResolver.getConsul`: the body (`none` for `nil`) and the
error. -/
def ConsulResolver.getConsul (lib : Library) (r : ConsulResolver) (ctx : Option Context)
    (endpoint : String) : Option String × GoError :=
  let t := match r.Transport with
    | some t => t
    | none => lib.DefaultTransport
  let address := r.address
  let url := address ++ "/" ++ endpoint
  match lib.NewRequest url with
  | Except.error err => (none, some err)
  | Except.ok req =>
    match t ctx req with
    | Except.error err => (none, some err)
    | Except.ok res =>
      if res.StatusCode = 200 then
        (some res.Body, none)
      else if res.StatusCode = 404 then
        (none, none)
      else
        (none, some (consulStatusError endpoint address res))

/-- The inner loop of `ConsulResolver.Resolve`: whether some check names the
node. -/
def ConsulResolver.passing (checksResults : List CheckResult) (node : String) : Bool :=
  match checksResults with
  | [] => false
  | c :: rest => if c.Node = node then true else ConsulResolver.passing rest node

/-- The endpoint appended for one catalog entry. -/
def ConsulResolver.endpoint (r : ServiceResult) : String :=
  let host := r.ServiceAddress
  let port := r.ServicePort
  let host := if host.length = 0 then r.Address else host
  JoinHostPort host (Itoa port)

/-- The outer loop of `ConsulResolver.Resolve` over `serviceResults`, appending
to `list`. -/
def ConsulResolver.loop (checksResults : List CheckResult) :
    List ServiceResult → List String → List String
  | [], list => list
  | r :: rest, list =>
    if ConsulResolver.passing checksResults r.Node then
      ConsulResolver.loop checksResults rest (list ++ [ConsulResolver.endpoint r])
    else
      ConsulResolver.loop checksResults rest list

/-- The health-check endpoint requested by `Resolve`. -/
def ConsulResolver.checksEndpoint (r : ConsulResolver) : String :=
  "v1/health/checks/" ++ r.service ++ "?passing"

/-- The catalog endpoint requested by `Resolve`. -/
def ConsulResolver.serviceEndpoint (r : ConsulResolver) : String :=
  "v1/catalog/service/" ++ r.service

/-- The method `ConsulResolver.Resolve`. The errors returned by the two calls of
`getConsul` are dropped, as in the source (`checksBody, _ :=`), and the body
goes to `json.Unmarshal` whatever it is. The locals `address` and `t` that the
method computes first are read by nothing after them; `getConsul` computes its
own. -/
def ConsulResolver.Resolve (lib : Library) (r : ConsulResolver) (ctx : Option Context) :
    Strings × GoError :=
  match r.getConsul lib ctx r.checksEndpoint with
  | (checksBody, _) =>
    match jsonUnmarshal lib.decodeChecks checksBody with
    | Except.error err => (none, some err)
    | Except.ok checksResults =>
      match r.getConsul lib ctx r.serviceEndpoint with
      | (serviceBody, _) =>
        match jsonUnmarshal lib.decodeServices serviceBody with
        | Except.error err => (none, some err)
        | Except.ok serviceResults =>
          (some (ConsulResolver.loop checksResults serviceResults []), none)

/-! ## Concrete inputs -/

/-- A node that advertises `10.0.0.1:9999`. -/
def nodeWithPort : NodeInfo :=
  { RemoteAddress := "", Hostname := "", BroadcastAddress := "10.0.0.1:9999",
    TcpPort := 4150, HttpPort := 4151, Version := "" }

/-- A node that advertises `10.0.0.1`. -/
def nodePlain : NodeInfo :=
  { RemoteAddress := "", Hostname := "", BroadcastAddress := "10.0.0.1",
    TcpPort := 4150, HttpPort := 4151, Version := "" }

/-- A node that advertises `:9999`, a port after an empty host. -/
def nodeEmptyHost : NodeInfo :=
  { RemoteAddress := "", Hostname := "", BroadcastAddress := ":9999",
    TcpPort := 4150, HttpPort := 4151, Version := "" }

/-- A node that advertises `[abc]:9999`, a bracketed host and a port. -/
def nodeBracketHost : NodeInfo :=
  { RemoteAddress := "", Hostname := "", BroadcastAddress := "[abc]:9999",
    TcpPort := 4150, HttpPort := 4151, Version := "" }

/-- A node that advertises the IPv6 address `::1`, without a port. -/
def nodeIPv6 : NodeInfo :=
  { RemoteAddress := "", Hostname := "", BroadcastAddress := "::1",
    TcpPort := 4150, HttpPort := 4151, Version := "" }

/-- A node that advertises the bracketed IPv6 address `[::1]`, without a port. -/
def nodeIPv6Bracket : NodeInfo :=
  { RemoteAddress := "", Hostname := "", BroadcastAddress := "[::1]",
    TcpPort := 4150, HttpPort := 4151, Version := "" }

/-- A `CachedResolver` as it is before any call: ten units of `Timeout`, zero
expiry, no servers, no error. -/
def freshCache : CachedResolver :=
  { Timeout := 10, exptime := 0, servers := none, error := none }

/-- A cache that holds `["x"]` until time 200. -/
def warmCache : CachedResolver :=
  { Timeout := 10, exptime := 200, servers := some ["x"], error := none }

/-- A static resolver of the single address `a`. -/
def staticA : Resolver := Servers.Resolve (some ["a"])

/-- The addresses of the results that carry a `nil` error, concatenated in the
order of the list. -/
def okAddresses (rs : List result) : List String :=
  (rs.filter (fun r => r.err.isNone)).flatMap (fun r => elems r.res)

/-- A resolver that fails with the error `boom`. -/
def failing : Resolver := fun _ => (none, some (GoErr.errorf "boom"))

/-- A resolver that fails with the error `boom` and still returns an address. -/
def failingWithAddress : Resolver := fun _ => (some ["x"], some (GoErr.errorf "boom"))

/-- The children `[A:ok(["x"]), B:fails, C:ok(["y"])]`. -/
def childrenABC : multiResolver :=
  MultiResolver [Servers.Resolve (some ["x"]), failing, Servers.Resolve (some ["y"])]

/-- The results of `childrenABC` delivered in the order C, B, A. -/
def arrivalCBA : List result :=
  [{ res := some ["y"], err := none }, { res := none, err := some (GoErr.errorf "boom") },
   { res := some ["x"], err := none }]

/-- A child that succeeds with an empty list next to a child that fails. -/
def childrenEmptyAndFailing : multiResolver :=
  MultiResolver [Servers.Resolve none, failing]

/-- Two children that fail. -/
def childrenFailing : multiResolver :=
  MultiResolver [failing, failing]

/-- Two children that succeed with an empty list. -/
def childrenEmpty : multiResolver :=
  MultiResolver [Servers.Resolve none, Servers.Resolve none]

/-- The body `[{"Node":"n1"}]` of the health-checks answer. -/
def checksJSON : String := "[\x7b\"Node\":\"n1\"\x7d]"

/-- The body of the catalog answer: `n1` at `1.2.3.4` and `n2` at `5.6.7.8`,
both with service port 8080. -/
def catalogJSON : String :=
  "[\x7b\"Node\":\"n1\",\"Address\":\"1.2.3.4\",\"ServicePort\":8080\x7d," ++
  "\x7b\"Node\":\"n2\",\"Address\":\"5.6.7.8\",\"ServicePort\":8080\x7d]"

/-- A transport that answers 200 with `checksJSON` and `catalogJSON` to the two
requests made with the default address and service, and 404 to anything else. -/
def catalogTransport : RoundTripper := fun _ url =>
  if url = "http://localhost:8500/v1/health/checks/nsqlookupd?passing" then
    Except.ok { StatusCode := 200, Status := "200 OK", Body := checksJSON }
  else if url = "http://localhost:8500/v1/catalog/service/nsqlookupd" then
    Except.ok { StatusCode := 200, Status := "200 OK", Body := catalogJSON }
  else
    Except.ok { StatusCode := 404, Status := "404 Not Found", Body := "" }

/-- A library whose decoders know the two bodies above. -/
def catalogLibrary : Library :=
  { DefaultTransport := catalogTransport
    NewRequest := fun text => Except.ok text
    decodeChecks := fun body =>
      if body = checksJSON then Except.ok [{ Node := "n1" }]
      else Except.error (GoErr.errorf "invalid character")
    decodeServices := fun body =>
      if body = catalogJSON then
        Except.ok [{ Node := "n1", Address := "1.2.3.4", ServiceAddress := "", ServicePort := 8080 },
                   { Node := "n2", Address := "5.6.7.8", ServiceAddress := "", ServicePort := 8080 }]
      else Except.error (GoErr.errorf "invalid character") }

/-- A `ConsulResolver` with every field left at its zero value. -/
def defaultConsul : ConsulResolver :=
  { Address := "", Service := "", Transport := none }

/-- A library whose default transport answers every request with the given
status and an empty body, with any decoders. -/
def statusLibrary (code : Int) (status : String)
    (decodeChecks : String → Except GoErr (List CheckResult))
    (decodeServices : String → Except GoErr (List ServiceResult)) : Library :=
  { DefaultTransport := fun _ _ => Except.ok { StatusCode := code, Status := status, Body := "" }
    NewRequest := fun text => Except.ok text
    decodeChecks := decodeChecks
    decodeServices := decodeServices }

/-- A library whose default transport fails every request with the error
`connection refused`, with any decoders. -/
def refusedLibrary (decodeChecks : String → Except GoErr (List CheckResult))
    (decodeServices : String → Except GoErr (List ServiceResult)) : Library :=
  { DefaultTransport := fun _ _ => Except.error (GoErr.errorf "connection refused")
    NewRequest := fun text => Except.ok text
    decodeChecks := decodeChecks
    decodeServices := decodeServices }

/-! ## Sorting: `byNode`, `sortedNodes`, `sortedStrings` -/

/-- Go's `<` on the bytes of two strings, as a lexicographic comparison of
their characters (the byte order of UTF-8 is the order of the code points). -/
def lexLess : List Char → List Char → Bool
  | _, [] => false
  | [], _ :: _ => true
  | a :: as, b :: bs =>
    if a.toNat < b.toNat then true else if a = b then lexLess as bs else false

/-- Go's `<` on strings. -/
def stringLess (a b : String) : Bool := lexLess a.data b.data

/-- Go's `sort.Interface` over a collection of type `σ`; `Swap` returns the
collection after the exchange. -/
structure Interface (σ : Type) where
  Len : σ → Nat
  Less : σ → Nat → Nat → Bool
  Swap : σ → Nat → Nat → σ

/-- The inner loop of the library's `insertionSort(data, a, b)`:
`for j := i; j > a && data.Less(j, j-1); j-- { data.Swap(j, j-1) }`, started
at `j`. -/
def insertionSortInner {σ : Type} (I : Interface σ) (a : Nat) : Nat → σ → σ
  | 0, data => data
  | j + 1, data =>
    if a < j + 1 ∧ I.Less data (j + 1) j = true then
      insertionSortInner I a j (I.Swap data (j + 1) j)
    else
      data

/-- The outer loop of the library's `insertionSort(data, a, b)`:
`for i := a + 1; i < b; i++`, started at `i` with the number of rounds left. -/
def insertionSortOuter {σ : Type} (I : Interface σ) (a b : Nat) : Nat → Nat → σ → σ
  | 0, _, data => data
  | rounds + 1, i, data =>
    if i < b then
      insertionSortOuter I a b rounds (i + 1) (insertionSortInner I a i data)
    else
      data

/-- The library's `insertionSort(data, a, b)`. -/
def insertionSort {σ : Type} (I : Interface σ) (data : σ) (a b : Nat) : σ :=
  insertionSortOuter I a b (b - (a + 1)) (a + 1) data

/-- Go's `sort.Sort(data)`, which sorts in ascending order as determined by
`Less` through `Len`, `Less` and `Swap` only. It is taken as the library's
`insertionSort(data, 0, n)`, the code that the library runs on collections of
up to twelve elements; on longer ones the library switches to a quicksort
whose result is, by the contract of `sort.Sort`, likewise ascending by `Less`
but may order equal elements otherwise. -/
def goSort {σ : Type} (I : Interface σ) (data : σ) : σ :=
  insertionSort I data 0 (I.Len data)

/-- The method `byNode.Len`. -/
def byNode.Len (n : List NodeInfo) : Nat := n.length

/-- The method `byNode.Swap`: `n[i], n[j] = n[j], n[i]` (nothing is done for
an index out of range, where Go panics). -/
def byNode.Swap (n : List NodeInfo) (i j : Nat) : List NodeInfo :=
  match n[i]?, n[j]? with
  | some ni, some nj => (n.set i nj).set j ni
  | _, _ => n

/-- The method `byNode.Less` (false for an index out of range, where Go
panics). -/
def byNode.Less (n : List NodeInfo) (i j : Nat) : Bool :=
  match n[i]?, n[j]? with
  | some n1, some n2 =>
    stringLess n1.BroadcastAddress n2.BroadcastAddress ||
      (n1.BroadcastAddress == n2.BroadcastAddress && decide (n1.TcpPort < n2.TcpPort))
  | _, _ => false

/-- The type `byNode` as a `sort.Interface`. -/
def byNode : Interface (List NodeInfo) :=
  { Len := byNode.Len, Less := byNode.Less, Swap := byNode.Swap }

/-- The function `sortedNodes` of `engine.go`. -/
def sortedNodes (n : List NodeInfo) : List NodeInfo :=
  goSort byNode n

/-- Go's `sort.StringSlice` as a `sort.Interface`: `Less(i, j)` is
`x[i] < x[j]`, `Swap(i, j)` is `x[i], x[j] = x[j], x[i]`. -/
def StringSlice : Interface (List String) :=
  { Len := fun x => x.length
    Less := fun x i j =>
      match x[i]?, x[j]? with
      | some xi, some xj => stringLess xi xj
      | _, _ => false
    Swap := fun x i j =>
      match x[i]?, x[j]? with
      | some xi, some xj => (x.set i xj).set j xi
      | _, _ => x }

/-- Go's `sort.Strings(x)`: `sort.Sort(sort.StringSlice(x))`. -/
def goSortStrings (x : List String) : List String :=
  goSort StringSlice x

/-- The function `sortedStrings` of `engine.go`. -/
def sortedStrings (s : List String) : List String :=
  goSortStrings s

/-- The identity of a node: `(BroadcastAddress, TcpPort)`. -/
def NodeInfo.identity (n : NodeInfo) : String × Int :=
  (n.BroadcastAddress, n.TcpPort)

/-- A node at an address and a TCP port, with a host name to tell records
apart. -/
def nodeAt (addr : String) (port : Int) (hostname : String) : NodeInfo :=
  { RemoteAddress := "", Hostname := hostname, BroadcastAddress := addr,
    TcpPort := port, HttpPort := 4151, Version := "" }

/-- The comparison made by `byNode.Less` on two records. -/
def nodeLess (n1 n2 : NodeInfo) : Bool :=
  stringLess n1.BroadcastAddress n2.BroadcastAddress ||
    (n1.BroadcastAddress == n2.BroadcastAddress && decide (n1.TcpPort < n2.TcpPort))

/-- The comparison of `byNode.Less` on two identities. -/
def identityLess (p q : String × Int) : Bool :=
  stringLess p.1 q.1 || (p.1 == q.1 && decide (p.2 < q.2))

/-- Three nodes in ascending order, the first two at the same address. -/
def threeNodes : List NodeInfo :=
  [nodeAt "a" 1 "", nodeAt "a" 2 "", nodeAt "b" 0 ""]

/-- Two nodes out of order. -/
def twoNodes : List NodeInfo :=
  [nodeAt "b" 1 "x", nodeAt "a" 2 "y"]

/-- The URL text that `getConsul` builds for an endpoint and gives to
`http.NewRequest`: `fmt.Sprintf("%s/%s", address, endpoint)`. The transport
gets the request that `http.NewRequest` makes of it, not this text. -/
def ConsulResolver.url (r : ConsulResolver) (endpoint : String) : String :=
  r.address ++ "/" ++ endpoint

/-- The transport that `getConsul` uses: `Transport`, or the default one when
it is `nil`. -/
def ConsulResolver.transport (lib : Library) (r : ConsulResolver) : RoundTripper :=
  match r.Transport with
  | some t => t
  | none => lib.DefaultTransport

/-- A `ConsulResolver` for the service `lookup` on the agent at `consul:8500`. -/
def namedConsul : ConsulResolver :=
  { Address := "consul:8500", Service := "lookup", Transport := none }

/-- A `ConsulResolver` for a service whose name holds a space, `a b`. -/
def spaceConsul : ConsulResolver :=
  { Address := "", Service := "a b", Transport := none }

/-- Go's `net/url` on a URL text in which only spaces of the path need
escaping: parsing the text and rendering the URL again writes each space
before the first `?` as `%20` and keeps the query as it is. -/
def escapePathSpaces : List Char → List Char
  | [] => []
  | c :: rest =>
    if c = '?' then c :: rest
    else if c = ' ' then '%' :: '2' :: '0' :: escapePathSpaces rest
    else c :: escapePathSpaces rest

/-- A library whose `http.NewRequest` escapes the spaces of the path as above
and whose transport answers every request with status 200 and, as body, the
URL of the request it received. -/
def echoLibrary : Library :=
  { DefaultTransport := fun _ url =>
      Except.ok { StatusCode := 200, Status := "200 OK", Body := url }
    NewRequest := fun text => Except.ok (String.mk (escapePathSpaces text.data))
    decodeChecks := fun _ => Except.error (GoErr.errorf "invalid character")
    decodeServices := fun _ => Except.error (GoErr.errorf "invalid character") }

/-! ## The registry behind the `Engine` interface -/

/-- Modelled from the spec: `engine.go` declares the `Engine` interface only,
and no type that implements it is among the source files. By the spec the
registry holds the set of known nodes, and the identity of a node is
(BroadcastAddress, TcpPort). The state is the list of the records held. -/
structure Registry where
  nodes : List NodeInfo
deriving DecidableEq, Repr

/-- Modelled from the spec: the upsert by identity of `RegisterNode`, missing
from the source files like the registry itself: a record with the identity of
the node is replaced in place, otherwise the node is added. -/
def upsertNode : List NodeInfo → NodeInfo → List NodeInfo
  | [], node => [node]
  | m :: rest, node =>
    if m.identity = node.identity then node :: rest else m :: upsertNode rest node

/-- Modelled from the spec: `RegisterNode`, implemented by no source file at
hand, is an upsert by identity that succeeds even if the node already exists. -/
def Registry.RegisterNode (s : Registry) (node : NodeInfo) : Registry :=
  { nodes := upsertNode s.nodes node }

/-- Modelled from the spec: `UnregisterNode`, implemented by no source file at
hand, removes the node and succeeds even if the node is unknown. -/
def Registry.UnregisterNode (s : Registry) (node : NodeInfo) : Registry :=
  { nodes := s.nodes.filter (fun m => decide (m.identity ≠ node.identity)) }

/-- Modelled from the spec: `LookupNodes`, implemented by no source file at
hand, returns all known nodes, sorted by `sortedNodes`. -/
def Registry.LookupNodes (s : Registry) : List NodeInfo :=
  sortedNodes s.nodes

/-- A call that changes the set of nodes of the registry. -/
inductive RegistryCall where
  | register (node : NodeInfo)
  | unregister (node : NodeInfo)
deriving DecidableEq, Repr

/-- The registry after one call. -/
def Registry.step (s : Registry) : RegistryCall → Registry
  | .register node => s.RegisterNode node
  | .unregister node => s.UnregisterNode node

/-- The registry after a sequence of calls on the empty registry: the states
that a registry can be in. -/
def Registry.after (calls : List RegistryCall) : Registry :=
  calls.foldl Registry.step { nodes := [] }

/-- The nodes of a lookup result that have the identity of a given node. -/
def withIdentity (nodes : List NodeInfo) (node : NodeInfo) : List NodeInfo :=
  nodes.filter (fun m => decide (m.identity = node.identity))

end Nsqlookup

namespace Nsqlookup

/-! ## Lemmas on the byte searches -/

theorem indexByte_isSome_iff (s : List Char) (c : Char) :
    (indexByte s c).isSome = true ↔ c ∈ s := by
  induction s with
  | nil => simp [indexByte]
  | cons x xs ih =>
    by_cases hx : x = c
    · simp [indexByte, hx]
    · have hc : ¬ c = x := fun h => hx h.symm
      simp [indexByte, hx, hc, ih]

theorem indexByte_eq_none_iff (s : List Char) (c : Char) :
    indexByte s c = none ↔ c ∉ s := by
  rw [← indexByte_isSome_iff]
  cases indexByte s c <;> simp

theorem lastIndexByte_eq_none (s : List Char) (c : Char) (h : c ∉ s) :
    lastIndexByte s c = none := by
  induction s with
  | nil => rfl
  | cons x xs ih =>
    have hx : ¬ x = c := fun e => h (by simp [e])
    have hxs : c ∉ xs := fun e => h (by simp [e])
    simp [lastIndexByte, ih hxs, hx]

theorem lastIndexByte_append_cons (h p : List Char) (c : Char) (hp : c ∉ p) :
    lastIndexByte (h ++ c :: p) c = some h.length := by
  induction h with
  | nil => simp [lastIndexByte, lastIndexByte_eq_none p c hp]
  | cons x xs ih => simp [lastIndexByte, ih]

/-- On `host:port` with a non-empty host, and no colon or bracket in either
part, `net.SplitHostPort` cuts at the colon. -/
theorem SplitHostPort_host_port (host p : String) (hne : host ≠ "")
    (hh : ∀ c ∈ host.data, c ≠ ':' ∧ c ≠ '[' ∧ c ≠ ']')
    (hp : ∀ c ∈ p.data, c ≠ ':' ∧ c ≠ '[' ∧ c ≠ ']') :
    SplitHostPort (host ++ ":" ++ p) = { host := host, port := p, err := none } := by
  have hdata : (host ++ ":" ++ p).data = host.data ++ ':' :: p.data := by
    simp [String.data_append]
  have hcp : ':' ∉ p.data := fun h => (hp _ h).1 rfl
  have hch : ':' ∉ host.data := fun h => (hh _ h).1 rfl
  have hlast := lastIndexByte_append_cons host.data p.data ':' hcp
  have hhead : (host.data ++ ':' :: p.data).head? ≠ some '[' := by
    cases hd : host.data with
    | nil => exact absurd (String.ext hd) hne
    | cons a t =>
      have ha : a ∈ host.data := by simp [hd]
      have := (hh a ha).2.1
      simpa using this
  have hopen : '[' ∉ host.data ++ ':' :: p.data := by
    intro h
    rcases List.mem_append.1 h with h | h
    · exact (hh _ h).2.1 rfl
    · rcases List.mem_cons.1 h with h | h
      · exact absurd h (by decide)
      · exact (hp _ h).2.1 rfl
  have hclose : ']' ∉ host.data ++ ':' :: p.data := by
    intro h
    rcases List.mem_append.1 h with h | h
    · exact (hh _ h).2.2 rfl
    · rcases List.mem_cons.1 h with h | h
      · exact absurd h (by decide)
      · exact (hp _ h).2.2 rfl
  have h1 : indexByte host.data ':' = none := (indexByte_eq_none_iff _ _).2 hch
  have h2 : indexByte (host.data ++ ':' :: p.data) '[' = none :=
    (indexByte_eq_none_iff _ _).2 hopen
  have h3 : indexByte (host.data ++ ':' :: p.data) ']' = none :=
    (indexByte_eq_none_iff _ _).2 hclose
  have hdrop : List.drop (host.data.length + 1) (host.data ++ ':' :: p.data) = p.data := by
    rw [List.drop_append_eq_append_drop]
    simp
  unfold SplitHostPort
  simp only [hdata, hlast, hhead, if_false, List.take_left, h1, Option.isSome_none,
    Bool.false_eq_true, splitTail, List.drop_zero, h2, h3, hdrop]

/-- Without a colon in the address, `makeBroadcastAddress` appends the port to
the address as it is. -/
theorem makeBroadcastAddress_no_colon (addr : String) (port : Int) (h : ':' ∉ addr.data) :
    makeBroadcastAddress addr port = addr ++ ":" ++ Itoa port := by
  have hlast := lastIndexByte_eq_none addr.data ':' h
  have hidx : indexByte addr.data ':' = none := (indexByte_eq_none_iff _ _).2 h
  have hsplit : SplitHostPort addr = addrErr "missing port in address" := by
    unfold SplitHostPort
    simp only [hlast]
  simp [makeBroadcastAddress, hsplit, addrErr, JoinHostPort, hidx]

/-- On `host:port` with a non-empty host and no colon or bracket in either
part, `makeBroadcastAddress` keeps the host and puts the given port. -/
theorem makeBroadcastAddress_host_port (host p : String) (port : Int) (hne : host ≠ "")
    (hh : ∀ c ∈ host.data, c ≠ ':' ∧ c ≠ '[' ∧ c ≠ ']')
    (hp : ∀ c ∈ p.data, c ≠ ':' ∧ c ≠ '[' ∧ c ≠ ']') :
    makeBroadcastAddress (host ++ ":" ++ p) port = host ++ ":" ++ Itoa port := by
  have hsplit := SplitHostPort_host_port host p hne hh hp
  have hidx : indexByte host.data ':' = none :=
    (indexByte_eq_none_iff _ _).2 (fun h => (hh _ h).1 rfl)
  have hlen : host.length ≠ 0 := by
    intro h0
    apply hne
    apply String.ext
    exact List.length_eq_zero.1 h0
  simp [makeBroadcastAddress, hsplit, hlen, JoinHostPort, hidx]

/-! ## C4: an address with a port -/

/-- C4, as stated, fails: the address `:9999` is an empty host portion (no
colon in it) followed by the port `9999`, yet the HTTP endpoint computed with
`HttpPort = 4151` is `[:9999]:4151`, not `:4151`, and still shows `9999`; and
for `[abc]:9999` the host portion `[abc]` comes out as `abc`. -/
theorem broadcastAddress_port_counterexample :
    nodeEmptyHost.BroadcastAddress = "" ++ ":" ++ "9999" ∧
    (∀ c ∈ "".data, c ≠ ':') ∧
    httpBroadcastAddress nodeEmptyHost = "[:9999]:4151" ∧
    httpBroadcastAddress nodeEmptyHost ≠ "" ++ ":" ++ Itoa nodeEmptyHost.HttpPort ∧
    nodeBracketHost.BroadcastAddress = "[abc]" ++ ":" ++ "9999" ∧
    (∀ c ∈ "[abc]".data, c ≠ ':') ∧
    tcpBroadcastAddress nodeBracketHost = "abc:4150" ∧
    tcpBroadcastAddress nodeBracketHost ≠ "[abc]" ++ ":" ++ Itoa nodeBracketHost.TcpPort := by
  decide

/-- C4 (amended): for every BroadcastAddress of the form `host ++ ":" ++ p`
with a non-empty host, and no `:`, `[` or `]` in the host or in the port
component `p`, and for every value of the port fields, `tcpBroadcastAddress`
returns `host ++ ":" ++ decimal(TcpPort)` and `httpBroadcastAddress` returns
`host ++ ":" ++ decimal(HttpPort)`: only the host portion is kept and the
configured port is substituted. -/
theorem broadcastAddress_port_replaced (info : NodeInfo) (host p : String)
    (haddr : info.BroadcastAddress = host ++ ":" ++ p) (hne : host ≠ "")
    (hh : ∀ c ∈ host.data, c ≠ ':' ∧ c ≠ '[' ∧ c ≠ ']')
    (hp : ∀ c ∈ p.data, c ≠ ':' ∧ c ≠ '[' ∧ c ≠ ']') :
    tcpBroadcastAddress info = host ++ ":" ++ Itoa info.TcpPort ∧
    httpBroadcastAddress info = host ++ ":" ++ Itoa info.HttpPort := by
  unfold tcpBroadcastAddress httpBroadcastAddress
  rw [haddr]
  exact ⟨makeBroadcastAddress_host_port host p _ hne hh hp,
    makeBroadcastAddress_host_port host p _ hne hh hp⟩

/-- C4 witness: BroadcastAddress `10.0.0.1:9999` with `HttpPort = 4151` gives
`10.0.0.1:4151`, and with `TcpPort = 4150` gives `10.0.0.1:4150`. -/
theorem broadcastAddress_port_replaced_witness :
    tcpBroadcastAddress nodeWithPort = "10.0.0.1:4150" ∧
    httpBroadcastAddress nodeWithPort = "10.0.0.1:4151" :=
  broadcastAddress_port_replaced nodeWithPort "10.0.0.1" "9999" (by decide) (by decide)
    (by decide) (by decide)

/-! ## C5: an address without a port -/

/-- C5, as stated, fails: the IPv6 address `::1` has no port component, and the
TCP endpoint computed with `TcpPort = 4150` is `[::1]:4150`, not `::1:4150`;
for `[::1]`, where `net.SplitHostPort` itself reports a missing port, it is
`[[::1]]:4150`, not `[::1]:4150`. -/
theorem broadcastAddress_verbatim_counterexample :
    (SplitHostPort nodeIPv6.BroadcastAddress).port = "" ∧
    tcpBroadcastAddress nodeIPv6 = "[::1]:4150" ∧
    tcpBroadcastAddress nodeIPv6 ≠ nodeIPv6.BroadcastAddress ++ ":" ++ Itoa nodeIPv6.TcpPort ∧
    (SplitHostPort nodeIPv6Bracket.BroadcastAddress).err = some "missing port in address" ∧
    tcpBroadcastAddress nodeIPv6Bracket = "[[::1]]:4150" ∧
    tcpBroadcastAddress nodeIPv6Bracket ≠
      nodeIPv6Bracket.BroadcastAddress ++ ":" ++ Itoa nodeIPv6Bracket.TcpPort := by
  decide

/-- C5 (amended): for every BroadcastAddress that contains no `:` (so no port
component) and every value of the port fields, the address is used verbatim as
the host: `tcpBroadcastAddress` returns exactly
`BroadcastAddress ++ ":" ++ decimal(TcpPort)` and `httpBroadcastAddress`
returns exactly `BroadcastAddress ++ ":" ++ decimal(HttpPort)`. -/
theorem broadcastAddress_verbatim (info : NodeInfo) (h : ':' ∉ info.BroadcastAddress.data) :
    tcpBroadcastAddress info = info.BroadcastAddress ++ ":" ++ Itoa info.TcpPort ∧
    httpBroadcastAddress info = info.BroadcastAddress ++ ":" ++ Itoa info.HttpPort :=
  ⟨makeBroadcastAddress_no_colon _ _ h, makeBroadcastAddress_no_colon _ _ h⟩

/-- C5 witness: BroadcastAddress `10.0.0.1` with `TcpPort = 4150` gives
`10.0.0.1:4150`, and with `HttpPort = 4151` gives `10.0.0.1:4151`. -/
theorem broadcastAddress_verbatim_witness :
    tcpBroadcastAddress nodePlain = "10.0.0.1:4150" ∧
    httpBroadcastAddress nodePlain = "10.0.0.1:4151" :=
  broadcastAddress_verbatim nodePlain (by decide)

/-! ## C1: the cache window of `CachedResolver` -/

theorem elems_copy (s : Servers) : elems (Servers.copy s) = elems s := by
  unfold Servers.copy len
  split
  · rename_i h
    rw [List.length_eq_zero.1 h]
    rfl
  · rfl

/-- Before the expiry the cached pair is returned, the fields are unchanged and
the wrapped resolver is not called. -/
theorem CachedResolver.Resolve_hit (r : CachedResolver) (now : Int) (rslv : Resolver)
    (ctx : Option Context) (h : now < r.exptime) :
    r.Resolve now rslv ctx =
      { res := Servers.copy r.servers, err := r.error, next := r, invoked := false } := by
  simp [CachedResolver.Resolve, CachedResolver.get, h]

/-- At or after the expiry the wrapped resolver is called; an answer other than
`context.Canceled` is returned and stored with the new expiry. -/
theorem CachedResolver.Resolve_miss (r : CachedResolver) (now : Int) (rslv : Resolver)
    (ctx : Option Context) (h : ¬ now < r.exptime) (hc : (rslv ctx).2 ≠ some GoErr.Canceled) :
    r.Resolve now rslv ctx =
      { res := (rslv ctx).1, err := (rslv ctx).2,
        next := { r with servers := (rslv ctx).1, error := (rslv ctx).2,
                         exptime := now + r.Timeout },
        invoked := true } := by
  simp [CachedResolver.Resolve, CachedResolver.get, h, hc]

/-- At or after the expiry the wrapped resolver is called, whatever it
answers. -/
theorem CachedResolver.Resolve_miss_invoked (r : CachedResolver) (now : Int) (rslv : Resolver)
    (ctx : Option Context) (h : ¬ now < r.exptime) :
    (r.Resolve now rslv ctx).invoked = true := by
  by_cases hc : (rslv ctx).2 = some GoErr.Canceled
  · simp [CachedResolver.Resolve, CachedResolver.get, h, hc]
  · rw [CachedResolver.Resolve_miss r now rslv ctx h hc]

/-- A run of calls that all read the clock before the expiry: every outcome is
the cached pair, without a call to the wrapped resolver, and the fields stay
as they were. -/
theorem CachedResolver.run_hit (r : CachedResolver)
    (calls : List (Int × Resolver × Option Context)) (h : ∀ c ∈ calls, c.1 < r.exptime) :
    ∀ o ∈ r.run calls,
      o = { res := Servers.copy r.servers, err := r.error, next := r, invoked := false } := by
  induction calls with
  | nil => simp [CachedResolver.run]
  | cons c rest ih =>
    obtain ⟨now, rslv, ctx⟩ := c
    have hnow : now < r.exptime := h (now, rslv, ctx) (by simp)
    have hrest : ∀ c ∈ rest, c.1 < r.exptime := fun c hc => h c (by simp [hc])
    intro o ho
    simp only [CachedResolver.run, CachedResolver.Resolve_hit r now rslv ctx hnow,
      List.mem_cons] at ho
    rcases ho with ho | ho
    · exact ho
    · exact ih hrest o ho

theorem CachedResolver.after_of_all (r s : CachedResolver) (outs : List Resolved)
    (h : ∀ o ∈ outs, o.next = s) (hr : r = s) : r.after outs = s := by
  unfold CachedResolver.after
  cases hl : outs.getLast? with
  | none => exact hr
  | some o => exact h o (List.mem_of_getLast?_eq_some hl)

theorem invocations_of_none (outs : List Resolved) (h : ∀ o ∈ outs, o.invoked = false) :
    invocations outs = 0 := by
  unfold invocations
  rw [List.length_eq_zero, List.filter_eq_nil_iff]
  intro o ho
  simp [h o ho]

/-- C1: let a `Resolve` at time `t0` find the cache expired, so that it calls
the wrapped resolver, and get any answer other than the error
`context.Canceled`. Then it returns that answer, and for every run of later
calls whose clock readings `t` satisfy `t0 ≤ t < t0 + Timeout`: each call
returns the same servers (element for element) and the same error without
calling the wrapped resolver, and leaves the fields as the first call left
them; the first call and the calls of the run call the wrapped resolver exactly
once in all; and after the run a `Resolve` at any time `t ≥ t0 + Timeout` calls
the wrapped resolver again. -/
theorem CachedResolver.window (r : CachedResolver) (t0 : Int) (rslv0 : Resolver)
    (ctx0 : Option Context) (hexp : ¬ t0 < r.exptime)
    (hnc : (rslv0 ctx0).2 ≠ some GoErr.Canceled) :
    (r.Resolve t0 rslv0 ctx0).invoked = true ∧
    (r.Resolve t0 rslv0 ctx0).res = (rslv0 ctx0).1 ∧
    (r.Resolve t0 rslv0 ctx0).err = (rslv0 ctx0).2 ∧
    ∀ calls : List (Int × Resolver × Option Context),
      (∀ c ∈ calls, t0 ≤ c.1 ∧ c.1 < t0 + r.Timeout) →
      (∀ o ∈ (r.Resolve t0 rslv0 ctx0).next.run calls,
        elems o.res = elems (rslv0 ctx0).1 ∧ o.err = (rslv0 ctx0).2 ∧
        o.invoked = false ∧ o.next = (r.Resolve t0 rslv0 ctx0).next) ∧
      invocations (r.Resolve t0 rslv0 ctx0 :: (r.Resolve t0 rslv0 ctx0).next.run calls) = 1 ∧
      ∀ (t : Int) (rslv : Resolver) (ctx : Option Context), t0 + r.Timeout ≤ t →
        (((r.Resolve t0 rslv0 ctx0).next.after
          ((r.Resolve t0 rslv0 ctx0).next.run calls)).Resolve t rslv ctx).invoked = true := by
  rw [CachedResolver.Resolve_miss r t0 rslv0 ctx0 hexp hnc]
  refine ⟨rfl, rfl, rfl, ?_⟩
  intro calls hcalls
  have hall := CachedResolver.run_hit
    { r with servers := (rslv0 ctx0).1, error := (rslv0 ctx0).2, exptime := t0 + r.Timeout }
    calls (fun c hc => (hcalls c hc).2)
  have hquiet : ∀ o ∈ CachedResolver.run
      { r with servers := (rslv0 ctx0).1, error := (rslv0 ctx0).2, exptime := t0 + r.Timeout }
      calls, o.invoked = false := by
    intro o ho
    rw [hall o ho]
  refine ⟨?_, ?_, ?_⟩
  · intro o ho
    rw [hall o ho]
    exact ⟨elems_copy _, rfl, rfl, rfl⟩
  · have h0 := invocations_of_none _ hquiet
    unfold invocations at h0 ⊢
    simp [List.filter_cons, h0]
  · intro t rslv ctx ht
    rw [CachedResolver.after_of_all _
      { r with servers := (rslv0 ctx0).1, error := (rslv0 ctx0).2, exptime := t0 + r.Timeout }
      _ (fun o ho => by rw [hall o ho]) rfl]
    apply CachedResolver.Resolve_miss_invoked
    simpa using ht

/-- C1 witness: a fresh cache with `Timeout = 10` resolves at time 100 through
a static resolver; two more calls at times 101 and 109 bring the count of calls
to the wrapped resolver to one, and a call at time 110 calls it again. -/
theorem CachedResolver.window_witness :
    invocations (freshCache.Resolve 100 staticA none ::
      (freshCache.Resolve 100 staticA none).next.run
        [(101, staticA, none), (109, staticA, none)]) = 1 ∧
    (((freshCache.Resolve 100 staticA none).next.after
      ((freshCache.Resolve 100 staticA none).next.run
        [(101, staticA, none), (109, staticA, none)])).Resolve 110 staticA none).invoked
      = true :=
  have h := (CachedResolver.window freshCache 100 staticA none (by decide) (by decide)).2.2.2
    [(101, staticA, none), (109, staticA, none)] (by decide)
  ⟨h.2.1, h.2.2 110 staticA none (by decide)⟩

/-! ## `multiResolver`: the receive loop -/

theorem elems_goAppend (s t : Strings) : elems (goAppend s t) = elems s ++ elems t := by
  unfold goAppend len
  split
  · rename_i h
    rw [List.length_eq_zero.1 h, List.append_nil]
  · rfl

theorem okAddresses_cons_ok (r : result) (rs : List result) (h : r.err = none) :
    okAddresses (r :: rs) = elems r.res ++ okAddresses rs := by
  simp [okAddresses, h]

theorem okAddresses_cons_err (r : result) (rs : List result) (h : r.err ≠ none) :
    okAddresses (r :: rs) = okAddresses rs := by
  have h1 : r.err.isNone = false := by
    cases hr : r.err with
    | none => exact absurd hr h
    | some e => rfl
  simp [okAddresses, h1]

theorem okAddresses_perm (rs ts : List result) (h : rs.Perm ts) :
    (okAddresses rs).Perm (okAddresses ts) :=
  List.Perm.flatMap_right _ (List.Perm.filter _ h)

theorem mem_okAddresses (rs : List result) (r : result) (hr : r ∈ rs) (hok : r.err = none)
    (x : String) (hx : x ∈ elems r.res) : x ∈ okAddresses rs := by
  unfold okAddresses
  rw [List.mem_flatMap]
  exact ⟨r, List.mem_filter.2 ⟨hr, by simp [hok]⟩, hx⟩

/-- The receive loop run for as many receptions as there are deliveries: it
returns; the addresses are those it started with followed by the addresses of
the successful results in arrival order; if every result failed the slice is
the one it started with; and if the accumulation of a non-nil error is never
nil, the error is non-nil as soon as it started so or one result failed. -/
theorem multiResolver.collect_spec (appendErr : GoError → GoError → GoError)
    (rs : List result) :
    ∀ (res : Strings) (err : GoError),
      ∃ res1 err1, multiResolver.collect appendErr rs.length rs res err = some (res1, err1) ∧
        elems res1 = elems res ++ okAddresses rs ∧
        ((∀ r ∈ rs, r.err ≠ none) → res1 = res) ∧
        ((∀ r ∈ rs, r.err = none) → err1 = err) ∧
        ((∀ a e, appendErr a (some e) ≠ none) →
          (err ≠ none ∨ ∃ r ∈ rs, r.err ≠ none) → err1 ≠ none) := by
  induction rs with
  | nil =>
    intro res err
    refine ⟨res, err, rfl, by simp [okAddresses], fun _ => rfl, fun _ => rfl, ?_⟩
    intro _ h
    rcases h with h | ⟨r, hr, _⟩
    · exact h
    · exact absurd hr (List.not_mem_nil r)
  | cons r rest ih =>
    intro res err
    by_cases hr : r.err = none
    · obtain ⟨res1, err1, hrun, hel, _, hkeep, herr⟩ := ih (goAppend res r.res) err
      refine ⟨res1, err1, ?_, ?_, ?_, ?_, ?_⟩
      · simp [multiResolver.collect, hr, hrun]
      · rw [hel, elems_goAppend, okAddresses_cons_ok r rest hr, List.append_assoc]
      · intro hall
        exact absurd hr (hall r (by simp))
      · intro hall
        exact hkeep (fun x hx => hall x (by simp [hx]))
      · intro happ h
        apply herr happ
        rcases h with h | ⟨x, hx, hxe⟩
        · exact Or.inl h
        · rcases List.mem_cons.1 hx with hx | hx
          · exact absurd (hx ▸ hr) hxe
          · exact Or.inr ⟨x, hx, hxe⟩
    · obtain ⟨res1, err1, hrun, hel, hres, hkeep, herr⟩ := ih res (appendErr err r.err)
      refine ⟨res1, err1, ?_, ?_, ?_, ?_, ?_⟩
      · simp [multiResolver.collect, hr, hrun]
      · rw [hel, okAddresses_cons_err r rest hr]
      · intro hall
        exact hres (fun x hx => hall x (by simp [hx]))
      · intro hall
        exact absurd (hall r (by simp)) hr
      · intro happ _
        apply herr happ
        left
        obtain ⟨e, he⟩ := Option.ne_none_iff_exists'.1 hr
        rw [he]
        exact happ err e

theorem multiResolver.sent_length (m : multiResolver) (ctx : Option Context) :
    (m.sent ctx).length = m.list.length := by
  simp [multiResolver.sent]

/-- With two or more children and one delivery per child, `Resolve` is the
receive loop followed by the test on the number of addresses. -/
theorem multiResolver.Resolve_many (appendErr : GoError → GoError → GoError)
    (m : multiResolver) (ctx : Option Context) (reschan : List result)
    (h2 : 2 ≤ m.list.length) (hperm : reschan.Perm (m.sent ctx)) :
    m.Resolve appendErr ctx reschan =
      match multiResolver.collect appendErr reschan.length reschan none none with
      | none => none
      | some (res, err) => if len res ≠ 0 then some (res, none) else some (res, err) := by
  have hlen : reschan.length = m.list.length := by
    rw [hperm.length_eq, multiResolver.sent_length]
  unfold multiResolver.Resolve
  rw [hlen]
  match hm : m.list with
  | [] => simp [hm] at h2
  | [_] => simp [hm] at h2
  | _ :: _ :: _ => rfl

/-! ## C2: the merge of `multiResolver` -/

/-- C2: for a MultiResolver with two or more children and every order in which
the children's results arrive (`reschan`, a permutation of what the children
send), `Resolve` returns, and the addresses it returns are exactly the
concatenation, in arrival order, of the address lists of the children that
returned a nil error; whenever that concatenation is non-empty the returned
error is nil; and the returned addresses are a permutation of the same
concatenation taken in launch order, so the multiset of addresses does not
depend on the arrival order. -/
theorem multiResolver.Resolve_merges (appendErr : GoError → GoError → GoError)
    (m : multiResolver) (ctx : Option Context) (reschan : List result)
    (h2 : 2 ≤ m.list.length) (hperm : reschan.Perm (m.sent ctx)) :
    ∃ res err, m.Resolve appendErr ctx reschan = some (res, err) ∧
      elems res = okAddresses reschan ∧
      (okAddresses reschan ≠ [] → err = none) ∧
      (elems res).Perm (okAddresses (m.sent ctx)) := by
  obtain ⟨res1, err1, hrun, hel, _, _, _⟩ :=
    multiResolver.collect_spec appendErr reschan none none
  have hel1 : elems res1 = okAddresses reschan := by
    rw [hel]
    rfl
  rw [multiResolver.Resolve_many appendErr m ctx reschan h2 hperm, hrun]
  by_cases hl : len res1 ≠ 0
  · refine ⟨res1, none, by simp [hl], hel1, fun _ => rfl, ?_⟩
    rw [hel1]
    exact okAddresses_perm _ _ hperm
  · refine ⟨res1, err1, by simp [hl], hel1, ?_, ?_⟩
    · intro hne
      exfalso
      apply hl
      unfold len
      rw [hel1]
      exact fun h0 => hne (List.length_eq_zero.1 h0)
    · rw [hel1]
      exact okAddresses_perm _ _ hperm

/-- C2 witness: the children `[A:ok(["x"]), B:fails, C:ok(["y"])]`, whose
results arrive in the order C, B, A, give the addresses `y`, `x` and no error. -/
theorem multiResolver.Resolve_merges_witness :
    childrenABC.Resolve appendError none arrivalCBA = some (some ["y", "x"], none) ∧
    ∃ res err, childrenABC.Resolve appendError none arrivalCBA = some (res, err) ∧
      elems res = okAddresses arrivalCBA ∧
      (okAddresses arrivalCBA ≠ [] → err = none) ∧
      (elems res).Perm (okAddresses (childrenABC.sent none)) :=
  ⟨by decide,
    multiResolver.Resolve_merges appendError childrenABC none arrivalCBA (by decide) (by decide)⟩

/-! ## C6: a context that is already done -/

/-- C6, as stated, fails. A cache that holds `["x"]` until time 200, called at
time 100 with a canceled context, returns `["x"]` with a nil error and keeps
its fields, the wrapped resolver not being called. And a fresh cache called
with a context whose deadline has passed, over a static resolver that returns
the context's error, returns `context.DeadlineExceeded` and stores it until
time 110, so that the next call at time 105 with a live context gets it from
the cache. -/
theorem CachedResolver.done_context_counterexample :
    warmCache.Resolve 100 staticA (some Context.canceled) =
      { res := some ["x"], err := none, next := warmCache, invoked := false } ∧
    freshCache.Resolve 100 staticA (some Context.deadlineExceeded) =
      { res := none, err := some GoErr.DeadlineExceeded,
        next := { Timeout := 10, exptime := 110, servers := none,
                  error := some GoErr.DeadlineExceeded },
        invoked := true } ∧
    ((freshCache.Resolve 100 staticA (some Context.deadlineExceeded)).next.Resolve 105 staticA
      (some Context.active)).err = some GoErr.DeadlineExceeded := by
  decide

/-- C6 (amended): let `CachedResolver.Resolve` be called with a context that is
already canceled, over a wrapped resolver that answers such a context with no
results and the context's error `context.Canceled`. If the cache has expired,
the call returns `context.Canceled` with no results and leaves the cache empty
(servers nil, error nil, zero expiry), so the cancellation is not served from
the cache. If the cache has not expired, the call returns the cached pair
without calling the wrapped resolver and leaves the cache as it was. -/
theorem CachedResolver.canceled_context (r : CachedResolver) (now : Int) (rslv : Resolver)
    (c : Context) (hc : c.Err = some GoErr.Canceled) (hr : rslv (some c) = (none, c.Err)) :
    (¬ now < r.exptime →
      r.Resolve now rslv (some c) =
        { res := none, err := some GoErr.Canceled,
          next := { r with servers := none, error := none, exptime := 0 },
          invoked := true }) ∧
    (now < r.exptime →
      r.Resolve now rslv (some c) =
        { res := Servers.copy r.servers, err := r.error, next := r, invoked := false }) := by
  refine ⟨?_, CachedResolver.Resolve_hit r now rslv (some c)⟩
  intro hexp
  simp [CachedResolver.Resolve, CachedResolver.get, hexp, hr, hc]

/-- C6 witness: a fresh cache over a static resolver, called at time 100 with a
canceled context, returns `context.Canceled` and stays empty. -/
theorem CachedResolver.canceled_context_witness :
    freshCache.Resolve 100 staticA (some Context.canceled) =
      { res := none, err := some GoErr.Canceled,
        next := { Timeout := 10, exptime := 0, servers := none, error := none },
        invoked := true } :=
  (CachedResolver.canceled_context freshCache 100 staticA Context.canceled (by decide)
    (by decide)).1 (by decide)

/-! ## C7: partial success -/

/-- C7, as stated, fails: of two children, the first returns a nil error with
an empty address list and the second fails; `Resolve` returns the error of the
second, in both arrival orders. -/
theorem multiResolver.empty_success_counterexample :
    ((Servers.Resolve none) none).2 = none ∧
    childrenEmptyAndFailing.Resolve appendError none
        [{ res := none, err := none }, { res := none, err := some (GoErr.errorf "boom") }] =
      some (none, some (GoErr.errorf "boom")) ∧
    childrenEmptyAndFailing.Resolve appendError none
        [{ res := none, err := some (GoErr.errorf "boom") }, { res := none, err := none }] =
      some (none, some (GoErr.errorf "boom")) := by
  decide

/-- When a child returns a nil error together with at least one address,
`Resolve` returns a nil error. -/
theorem multiResolver.Resolve_some_address (appendErr : GoError → GoError → GoError)
    (m : multiResolver) (ctx : Option Context) (reschan : List result)
    (hperm : reschan.Perm (m.sent ctx))
    (hok : ∃ rslv ∈ m.list, (rslv ctx).2 = none ∧ len (rslv ctx).1 ≠ 0) :
    ∃ res, m.Resolve appendErr ctx reschan = some (res, none) := by
  obtain ⟨rslv, hmem, herr, hlen⟩ := hok
  match hm : m.list with
  | [] => simp [hm] at hmem
  | [r] =>
    have hrr : rslv = r := by simpa [hm] using hmem
    refine ⟨(r ctx).1, ?_⟩
    unfold multiResolver.Resolve
    rw [hm]
    simp only []
    rw [← hrr]
    exact congrArg some (Prod.ext rfl herr)
  | a :: b :: rest =>
    have h2 : 2 ≤ m.list.length := by simp [hm]
    obtain ⟨res1, err1, hrun, hel, _, _, _⟩ :=
      multiResolver.collect_spec appendErr reschan none none
    rw [multiResolver.Resolve_many appendErr m ctx reschan h2 hperm, hrun]
    have hsent : ({ res := (rslv ctx).1, err := (rslv ctx).2 } : result) ∈ reschan := by
      rw [hperm.mem_iff]
      unfold multiResolver.sent
      exact List.mem_map.2 ⟨rslv, hmem, rfl⟩
    have hne : len res1 ≠ 0 := by
      obtain ⟨x, hx⟩ := List.exists_mem_of_length_pos (Nat.pos_of_ne_zero hlen)
      have hx1 : x ∈ elems res1 := by
        rw [hel]
        exact List.mem_append_right _ (mem_okAddresses reschan _ hsent herr x hx)
      unfold len
      exact fun h0 => by rw [List.length_eq_zero.1 h0] at hx1; exact absurd hx1 (List.not_mem_nil x)
    exact ⟨res1, by simp [hne]⟩

/-- When no child fails, `Resolve` returns a nil error, with or without
addresses. -/
theorem multiResolver.Resolve_none_failed (appendErr : GoError → GoError → GoError)
    (m : multiResolver) (ctx : Option Context) (reschan : List result)
    (hperm : reschan.Perm (m.sent ctx))
    (hall : ∀ rslv ∈ m.list, (rslv ctx).2 = none) :
    ∃ res, m.Resolve appendErr ctx reschan = some (res, none) := by
  match hm : m.list with
  | [] =>
    refine ⟨none, ?_⟩
    unfold multiResolver.Resolve
    rw [hm]
  | [r] =>
    refine ⟨(r ctx).1, ?_⟩
    unfold multiResolver.Resolve
    rw [hm]
    exact congrArg some (Prod.ext rfl (hall r (by simp [hm])))
  | a :: b :: rest =>
    have h2 : 2 ≤ m.list.length := by simp [hm]
    have hnone : ∀ r ∈ reschan, r.err = none := by
      intro r hr
      rw [hperm.mem_iff] at hr
      unfold multiResolver.sent at hr
      obtain ⟨rslv, hmem, hEq⟩ := List.mem_map.1 hr
      rw [← hEq]
      exact hall rslv hmem
    obtain ⟨res1, err1, hrun, _, _, hkeep, _⟩ :=
      multiResolver.collect_spec appendErr reschan none none
    have herr1 : err1 = none := hkeep hnone
    rw [multiResolver.Resolve_many appendErr m ctx reschan h2 hperm, hrun, herr1]
    by_cases hl : len res1 ≠ 0
    · exact ⟨res1, by simp [hl]⟩
    · exact ⟨res1, by simp [hl]⟩

/-- C7 (amended): for every MultiResolver and every arrival order, whenever
some address is produced (at least one child's `Resolve` returns a nil error
together with at least one address) or no child fails, MultiResolver's
`Resolve` returns a nil error. -/
theorem multiResolver.Resolve_partial_success (appendErr : GoError → GoError → GoError)
    (m : multiResolver) (ctx : Option Context) (reschan : List result)
    (hperm : reschan.Perm (m.sent ctx))
    (hok : (∃ rslv ∈ m.list, (rslv ctx).2 = none ∧ len (rslv ctx).1 ≠ 0) ∨
      (∀ rslv ∈ m.list, (rslv ctx).2 = none)) :
    ∃ res, m.Resolve appendErr ctx reschan = some (res, none) := by
  rcases hok with h | h
  · exact multiResolver.Resolve_some_address appendErr m ctx reschan hperm h
  · exact multiResolver.Resolve_none_failed appendErr m ctx reschan hperm h

/-- C7 witness: the children `[A:ok(["x"]), B:fails, C:ok(["y"])]` resolve with
a nil error, an address being produced; and two children that both succeed with
an empty list resolve with a nil error, no child failing. -/
theorem multiResolver.Resolve_partial_success_witness :
    (∃ res, childrenABC.Resolve appendError none arrivalCBA = some (res, none)) ∧
    (∃ res, childrenEmpty.Resolve appendError none (childrenEmpty.sent none) =
      some (res, none)) :=
  ⟨multiResolver.Resolve_partial_success appendError childrenABC none arrivalCBA (by decide)
    (Or.inl ⟨Servers.Resolve (some ["x"]), by simp [childrenABC, MultiResolver], by decide,
      by decide⟩),
   multiResolver.Resolve_partial_success appendError childrenEmpty none
    (childrenEmpty.sent none) (List.Perm.refl _)
    (Or.inr (by
      intro rslv h
      simp [childrenEmpty, MultiResolver] at h
      rw [h]
      rfl))⟩

/-! ## C8: every child fails -/

/-- C8, as stated, fails: a MultiResolver with a single child whose `Resolve`
returns the address `x` together with a non-nil error returns that address. -/
theorem multiResolver.single_child_counterexample :
    (failingWithAddress none).2 ≠ none ∧
    (MultiResolver [failingWithAddress]).Resolve appendError none
        [{ res := some ["x"], err := some (GoErr.errorf "boom") }] =
      some (some ["x"], some (GoErr.errorf "boom")) := by
  decide

/-- C8 (amended): let every child's `Resolve` return a non-nil error (whatever
address list accompanies it), and let the accumulation of a non-nil error by
`appendError` never be nil. With two or more children `Resolve` returns no
addresses (the nil slice) and a non-nil error, in every arrival order; with
exactly one child it returns the pair of that child unchanged, so a non-nil
error with the address list the child gave. -/
theorem multiResolver.Resolve_all_fail (appendErr : GoError → GoError → GoError)
    (happ : ∀ a e, appendErr a (some e) ≠ none)
    (m : multiResolver) (ctx : Option Context) (reschan : List result)
    (hperm : reschan.Perm (m.sent ctx))
    (hall : ∀ rslv ∈ m.list, (rslv ctx).2 ≠ none) :
    (2 ≤ m.list.length → ∃ e, m.Resolve appendErr ctx reschan = some (none, some e)) ∧
    (∀ r, m.list = [r] → m.Resolve appendErr ctx reschan = some (r ctx) ∧ (r ctx).2 ≠ none) := by
  constructor
  · intro h2
    have hfail : ∀ r ∈ reschan, r.err ≠ none := by
      intro r hr
      rw [hperm.mem_iff] at hr
      unfold multiResolver.sent at hr
      obtain ⟨rslv, hmem, hEq⟩ := List.mem_map.1 hr
      rw [← hEq]
      exact hall rslv hmem
    obtain ⟨res1, err1, hrun, _, hres, _, herr⟩ :=
      multiResolver.collect_spec appendErr reschan none none
    have hres1 : res1 = none := hres hfail
    have hpos : 0 < reschan.length := by
      rw [hperm.length_eq, multiResolver.sent_length]
      omega
    obtain ⟨r, hr⟩ := List.exists_mem_of_length_pos hpos
    have herr1 : err1 ≠ none := herr happ (Or.inr ⟨r, hr, hfail r hr⟩)
    obtain ⟨e, he⟩ := Option.ne_none_iff_exists'.1 herr1
    refine ⟨e, ?_⟩
    rw [multiResolver.Resolve_many appendErr m ctx reschan h2 hperm, hrun, hres1, he]
    simp [len, elems]
  · intro r hm
    refine ⟨?_, hall r (by simp [hm])⟩
    unfold multiResolver.Resolve
    rw [hm]

/-- C8 witness: two failing children give no addresses and the accumulated
error. -/
theorem multiResolver.Resolve_all_fail_witness :
    ∃ e, childrenFailing.Resolve appendError none (childrenFailing.sent none) =
      some (none, some e) :=
  (multiResolver.Resolve_all_fail appendError (by intro a e; cases a <;> simp [appendError])
    childrenFailing none (childrenFailing.sent none) (List.Perm.refl _)
    (by intro rslv h; simp [childrenFailing, MultiResolver] at h; rw [h]; simp [failing])).1
    (by decide)

/-! ## C3: the endpoints of `ConsulResolver` -/

theorem ConsulResolver.passing_iff (checks : List CheckResult) (node : String) :
    ConsulResolver.passing checks node = true ↔ node ∈ checks.map (fun c => c.Node) := by
  induction checks with
  | nil => simp [ConsulResolver.passing]
  | cons c rest ih =>
    by_cases hc : c.Node = node
    · simp [ConsulResolver.passing, hc]
    · have hc1 : ¬ node = c.Node := fun h => hc h.symm
      simp [ConsulResolver.passing, hc, hc1, ih]

/-- The outer loop appends, in catalog order, the endpoint of each entry whose
node is named by a check. -/
theorem ConsulResolver.loop_eq (checks : List CheckResult) (services : List ServiceResult) :
    ∀ list : List String,
      ConsulResolver.loop checks services list =
        list ++ (services.filter
          (fun s => decide (s.Node ∈ checks.map (fun c => c.Node)))).map ConsulResolver.endpoint := by
  induction services with
  | nil => intro list; simp [ConsulResolver.loop]
  | cons s rest ih =>
    intro list
    by_cases hs : s.Node ∈ checks.map (fun c => c.Node)
    · have hp : ConsulResolver.passing checks s.Node = true :=
        (ConsulResolver.passing_iff checks s.Node).2 hs
      simp only [ConsulResolver.loop, hp, if_true, ih, List.filter_cons, hs, decide_True,
        List.map_cons, List.append_assoc, List.singleton_append]
    · have hp : ¬ ConsulResolver.passing checks s.Node = true :=
        fun h => hs ((ConsulResolver.passing_iff checks s.Node).1 h)
      simp only [ConsulResolver.loop, hp, if_false, ih, List.filter_cons, hs, decide_False,
        Bool.false_eq_true]

/-- C3: when the two bodies obtained by `getConsul` decode into the list
`checks` of passing health checks and the list `services` of catalog entries,
`ConsulResolver.Resolve` returns with a nil error exactly, in catalog order, one
endpoint per catalog entry whose Node is the Node of some check, and nothing for
the other entries (so an entry is emitted once, however many checks name its
node); the endpoint of an entry is `JoinHostPort(host, decimal ServicePort)`
where host is `ServiceAddress` when it is non-empty and `Address` otherwise. -/
theorem ConsulResolver.Resolve_endpoints (lib : Library) (r : ConsulResolver)
    (ctx : Option Context) (checks : List CheckResult) (services : List ServiceResult)
    (hchecks : jsonUnmarshal lib.decodeChecks (r.getConsul lib ctx r.checksEndpoint).1 =
      Except.ok checks)
    (hservices : jsonUnmarshal lib.decodeServices (r.getConsul lib ctx r.serviceEndpoint).1 =
      Except.ok services) :
    r.Resolve lib ctx =
      (some ((services.filter
        (fun s => decide (s.Node ∈ checks.map (fun c => c.Node)))).map ConsulResolver.endpoint),
       none) ∧
    ∀ s : ServiceResult,
      ConsulResolver.endpoint s =
        JoinHostPort (if s.ServiceAddress ≠ "" then s.ServiceAddress else s.Address)
          (Itoa s.ServicePort) := by
  constructor
  · unfold ConsulResolver.Resolve
    simp only [hchecks, hservices, ConsulResolver.loop_eq, List.nil_append]
  · intro s
    unfold ConsulResolver.endpoint
    by_cases h : s.ServiceAddress = ""
    · simp [h]
    · have hl : s.ServiceAddress.length ≠ 0 := by
        intro h0
        apply h
        apply String.ext
        exact List.length_eq_zero.1 h0
      simp [h, hl]

/-- C3 witness: checks `[n1]` and catalog `[n1@1.2.3.4:8080, n2@5.6.7.8:8080]`
give exactly `["1.2.3.4:8080"]`. -/
theorem ConsulResolver.Resolve_endpoints_witness :
    defaultConsul.Resolve catalogLibrary none = (some ["1.2.3.4:8080"], none) :=
  (ConsulResolver.Resolve_endpoints catalogLibrary defaultConsul none [{ Node := "n1" }]
    [{ Node := "n1", Address := "1.2.3.4", ServiceAddress := "", ServicePort := 8080 },
     { Node := "n2", Address := "5.6.7.8", ServiceAddress := "", ServicePort := 8080 }]
    rfl rfl).1.trans (by decide)

/-! ## C9 and C10: what `Resolve` does with the outcome of `getConsul` -/

/-- Without a body from the health-checks request, `Resolve` returns the error
of `json.Unmarshal` on an empty input, whatever error `getConsul` gave. -/
theorem ConsulResolver.Resolve_no_checks_body (lib : Library) (r : ConsulResolver)
    (ctx : Option Context) (h : (r.getConsul lib ctx r.checksEndpoint).1 = none) :
    r.Resolve lib ctx = (none, some errUnexpectedEnd) := by
  unfold ConsulResolver.Resolve
  simp only [h, jsonUnmarshal]

/-- C9 (the code at the failing input): when the catalog answers 404 to every
request, `getConsul` returns no body and a nil error for both endpoints, and
`Resolve` returns no list and the error of `json.Unmarshal` on an empty input,
not an empty list with a nil error. -/
theorem ConsulResolver.Resolve_not_found
    (decodeChecks : String → Except GoErr (List CheckResult))
    (decodeServices : String → Except GoErr (List ServiceResult)) :
    defaultConsul.getConsul (statusLibrary 404 "404 Not Found" decodeChecks decodeServices) none
        defaultConsul.checksEndpoint = (none, none) ∧
    defaultConsul.getConsul (statusLibrary 404 "404 Not Found" decodeChecks decodeServices) none
        defaultConsul.serviceEndpoint = (none, none) ∧
    defaultConsul.Resolve (statusLibrary 404 "404 Not Found" decodeChecks decodeServices) none =
      (none, some (GoErr.errorf "unexpected end of JSON input")) := by
  refine ⟨rfl, rfl, ?_⟩
  exact ConsulResolver.Resolve_no_checks_body _ _ _ rfl

/-- C10 (the code at the failing input): when the catalog answers 500 to every
request, `getConsul` returns the formatted error carrying the status code and
text, and when the transport fails it returns the transport error; in both
cases `Resolve` fails with the error of `json.Unmarshal` on an empty input
instead. -/
theorem ConsulResolver.Resolve_catalog_error
    (decodeChecks : String → Except GoErr (List CheckResult))
    (decodeServices : String → Except GoErr (List ServiceResult)) :
    defaultConsul.getConsul
        (statusLibrary 500 "500 Internal Server Error" decodeChecks decodeServices) none
        defaultConsul.checksEndpoint =
      (none, some (GoErr.errorf ("error looking up v1/health/checks/nsqlookupd?passing on " ++
        "consul agent at http://localhost:8500: 500 500 Internal Server Error"))) ∧
    defaultConsul.Resolve
        (statusLibrary 500 "500 Internal Server Error" decodeChecks decodeServices) none =
      (none, some (GoErr.errorf "unexpected end of JSON input")) ∧
    defaultConsul.getConsul (refusedLibrary decodeChecks decodeServices) none
        defaultConsul.checksEndpoint = (none, some (GoErr.errorf "connection refused")) ∧
    defaultConsul.Resolve (refusedLibrary decodeChecks decodeServices) none =
      (none, some (GoErr.errorf "unexpected end of JSON input")) := by
  refine ⟨rfl, ?_, rfl, ?_⟩
  · exact ConsulResolver.Resolve_no_checks_body _ _ _ rfl
  · exact ConsulResolver.Resolve_no_checks_body _ _ _ rfl

/-! ## The order on strings and on nodes -/

theorem lexLess_irrefl (a : List Char) : lexLess a a = false := by
  induction a with
  | nil => rfl
  | cons x xs ih => simp [lexLess, ih]

theorem char_eq_of_toNat_eq (a b : Char) (h : a.toNat = b.toNat) : a = b :=
  Char.ext (UInt32.ext h)

theorem lexLess_trans (a : List Char) :
    ∀ b c : List Char, lexLess a b = true → lexLess b c = true → lexLess a c = true := by
  induction a with
  | nil =>
    intro b c hab hbc
    cases c with
    | nil => cases b <;> simp [lexLess] at hbc
    | cons z zs => rfl
  | cons x xs ih =>
    intro b c hab hbc
    cases b with
    | nil => simp [lexLess] at hab
    | cons y ys =>
      cases c with
      | nil => simp [lexLess] at hbc
      | cons z zs =>
        simp only [lexLess] at hab hbc ⊢
        by_cases hxy : x.toNat < y.toNat
        · by_cases hyz : y.toNat < z.toNat
          · have : x.toNat < z.toNat := Nat.lt_trans hxy hyz
            simp [this]
          · simp only [hyz, if_false] at hbc
            by_cases hyz2 : y = z
            · subst hyz2
              simp [hxy]
            · simp [hyz2] at hbc
        · simp only [hxy, if_false] at hab
          by_cases hxy2 : x = y
          · subst hxy2
            simp only [if_true] at hab
            by_cases hxz : x.toNat < z.toNat
            · simp [hxz]
            · simp only [hxz, if_false] at hbc ⊢
              by_cases hxz2 : x = z
              · subst hxz2
                simp only [if_true] at hbc ⊢
                exact ih ys zs hab hbc
              · simp [hxz2] at hbc
          · simp [hxy2] at hab

theorem lexLess_connected (a : List Char) :
    ∀ b : List Char, lexLess a b = false → lexLess b a = false → a = b := by
  induction a with
  | nil =>
    intro b hab _
    cases b with
    | nil => rfl
    | cons y ys => simp [lexLess] at hab
  | cons x xs ih =>
    intro b hab hba
    cases b with
    | nil => simp [lexLess] at hba
    | cons y ys =>
      simp only [lexLess] at hab hba
      by_cases hxy : x.toNat < y.toNat
      · simp [hxy] at hab
      · by_cases hyx : y.toNat < x.toNat
        · simp [hyx] at hba
        · have hxy2 : x = y := char_eq_of_toNat_eq x y (by omega)
          subst hxy2
          simp only [hxy, if_false, if_true] at hab hba
          rw [ih ys hab hba]

theorem stringLess_irrefl (a : String) : stringLess a a = false :=
  lexLess_irrefl a.data

theorem stringLess_trans (a b c : String) (hab : stringLess a b = true)
    (hbc : stringLess b c = true) : stringLess a c = true :=
  lexLess_trans a.data b.data c.data hab hbc

theorem stringLess_connected (a b : String) (hab : stringLess a b = false)
    (hba : stringLess b a = false) : a = b :=
  String.ext (lexLess_connected a.data b.data hab hba)

theorem stringLess_asymm (a b : String) (hab : stringLess a b = true) :
    stringLess b a = false := by
  cases hba : stringLess b a with
  | false => rfl
  | true =>
    have := stringLess_trans a b a hab hba
    rw [stringLess_irrefl] at this
    exact absurd this (by decide)

/-- The comparison of two nodes, spelled out. -/
theorem nodeLess_iff (a b : NodeInfo) :
    nodeLess a b = true ↔
      stringLess a.BroadcastAddress b.BroadcastAddress = true ∨
        (a.BroadcastAddress = b.BroadcastAddress ∧ a.TcpPort < b.TcpPort) := by
  simp [nodeLess]

theorem nodeLess_irrefl (a : NodeInfo) : nodeLess a a = false := by
  cases h : nodeLess a a with
  | false => rfl
  | true =>
    rcases (nodeLess_iff a a).1 h with h1 | ⟨_, h2⟩
    · rw [stringLess_irrefl] at h1
      exact absurd h1 (by decide)
    · exact absurd h2 (lt_irrefl _)

theorem nodeLess_trans (a b c : NodeInfo) (hab : nodeLess a b = true)
    (hbc : nodeLess b c = true) : nodeLess a c = true := by
  rw [nodeLess_iff] at hab hbc ⊢
  rcases hab with h1 | ⟨e1, p1⟩
  · rcases hbc with h2 | ⟨e2, _⟩
    · exact Or.inl (stringLess_trans _ _ _ h1 h2)
    · exact Or.inl (e2 ▸ h1)
  · rcases hbc with h2 | ⟨e2, p2⟩
    · exact Or.inl (e1 ▸ h2)
    · exact Or.inr ⟨e1.trans e2, lt_trans p1 p2⟩

theorem nodeLess_asymm (a b : NodeInfo) (hab : nodeLess a b = true) : nodeLess b a = false := by
  cases hba : nodeLess b a with
  | false => rfl
  | true =>
    have := nodeLess_trans a b a hab hba
    rw [nodeLess_irrefl] at this
    exact absurd this (by decide)

/-- Neither node is less than the other exactly when they have the same
identity. -/
theorem nodeLess_neither_iff (a b : NodeInfo) :
    (nodeLess a b = false ∧ nodeLess b a = false) ↔ a.identity = b.identity := by
  constructor
  · rintro ⟨hab, hba⟩
    have hs1 : stringLess a.BroadcastAddress b.BroadcastAddress = false := by
      cases h : stringLess a.BroadcastAddress b.BroadcastAddress with
      | false => rfl
      | true => rw [(nodeLess_iff a b).2 (Or.inl h)] at hab; exact absurd hab (by decide)
    have hs2 : stringLess b.BroadcastAddress a.BroadcastAddress = false := by
      cases h : stringLess b.BroadcastAddress a.BroadcastAddress with
      | false => rfl
      | true => rw [(nodeLess_iff b a).2 (Or.inl h)] at hba; exact absurd hba (by decide)
    have he : a.BroadcastAddress = b.BroadcastAddress := stringLess_connected _ _ hs1 hs2
    have hp1 : ¬ a.TcpPort < b.TcpPort := by
      intro h
      rw [(nodeLess_iff a b).2 (Or.inr ⟨he, h⟩)] at hab
      exact absurd hab (by decide)
    have hp2 : ¬ b.TcpPort < a.TcpPort := by
      intro h
      rw [(nodeLess_iff b a).2 (Or.inr ⟨he.symm, h⟩)] at hba
      exact absurd hba (by decide)
    unfold NodeInfo.identity
    rw [he, show a.TcpPort = b.TcpPort by omega]
  · intro h
    have he : a.BroadcastAddress = b.BroadcastAddress := congrArg Prod.fst h
    have hp : a.TcpPort = b.TcpPort := congrArg Prod.snd h
    constructor
    · cases hab : nodeLess a b with
      | false => rfl
      | true =>
        rcases (nodeLess_iff a b).1 hab with h1 | ⟨_, h2⟩
        · rw [he, stringLess_irrefl] at h1
          exact absurd h1 (by decide)
        · omega
    · cases hba : nodeLess b a with
      | false => rfl
      | true =>
        rcases (nodeLess_iff b a).1 hba with h1 | ⟨_, h2⟩
        · rw [he, stringLess_irrefl] at h1
          exact absurd h1 (by decide)
        · omega

/-- If `b` is not less than `a` and `c` is not less than `b`, then `c` is not
less than `a`. -/
theorem nodeLess_le_trans (a b c : NodeInfo) (hba : nodeLess b a = false)
    (hcb : nodeLess c b = false) : nodeLess c a = false := by
  cases hca : nodeLess c a with
  | false => rfl
  | true =>
    exfalso
    cases hab : nodeLess a b with
    | true =>
      have := nodeLess_trans c a b hca hab
      rw [hcb] at this
      exact absurd this (by decide)
    | false =>
      have hid : a.identity = b.identity := (nodeLess_neither_iff a b).1 ⟨hab, hba⟩
      have he : a.BroadcastAddress = b.BroadcastAddress := congrArg Prod.fst hid
      have hp : a.TcpPort = b.TcpPort := congrArg Prod.snd hid
      have hcb2 : nodeLess c b = true := by
        rw [nodeLess_iff] at hca ⊢
        rw [← he, ← hp]
        exact hca
      rw [hcb] at hcb2
      exact absurd hcb2 (by decide)

theorem stringLess_le_trans (a b c : String) (hba : stringLess b a = false)
    (hcb : stringLess c b = false) : stringLess c a = false := by
  cases hca : stringLess c a with
  | false => rfl
  | true =>
    exfalso
    cases hab : stringLess a b with
    | true =>
      have := stringLess_trans c a b hca hab
      rw [hcb] at this
      exact absurd this (by decide)
    | false =>
      have he : a = b := stringLess_connected a b hab hba
      rw [he, hcb] at hca
      exact absurd hca (by decide)

/-! ## The insertion sort of the library -/

/-- One run of the inner loop on a collection `l ++ x :: r` whose first part `l`
has been sorted: the element `x` moves into `l`, the rest is untouched. -/
theorem insertionSortInner_spec {α : Type} (I : Interface (List α)) (less : α → α → Bool)
    (hLess : ∀ (l : List α) (y x : α) (r : List α),
      I.Less (l ++ y :: x :: r) (l.length + 1) l.length = less x y)
    (hSwap : ∀ (l : List α) (y x : α) (r : List α),
      I.Swap (l ++ y :: x :: r) (l.length + 1) l.length = l ++ x :: y :: r)
    (hasymm : ∀ x y, less x y = true → less y x = false)
    (htrans : ∀ x y z, less y x = false → less z y = false → less z x = false)
    (l : List α) :
    ∀ (x : α) (r : List α),
      ∃ l1, insertionSortInner I 0 l.length (l ++ x :: r) = l1 ++ r ∧ l1.Perm (l ++ [x]) ∧
        (l.Pairwise (fun p q => less q p = false) →
          l1.Pairwise (fun p q => less q p = false)) := by
  induction l using List.reverseRecOn with
  | nil =>
    intro x r
    exact ⟨[x], by simp [insertionSortInner], List.Perm.refl _,
      fun _ => List.pairwise_singleton _ _⟩
  | append_singleton l y ih =>
    intro x r
    have hdata : (l ++ [y]) ++ x :: r = l ++ y :: x :: r := by simp
    have hlen : (l ++ [y]).length = l.length + 1 := by simp
    rw [hdata, hlen]
    by_cases hxy : less x y = true
    · obtain ⟨l1, hrun, hperm, hsorted⟩ := ih x (y :: r)
      refine ⟨l1 ++ [y], ?_, ?_, ?_⟩
      · simp only [insertionSortInner, hLess, hSwap, hxy, Nat.zero_lt_succ, and_self, if_true]
        rw [hrun]
        simp
      · refine (hperm.append_right [y]).trans ?_
        simp only [List.append_assoc]
        exact List.Perm.append_left l (List.Perm.swap _ _ _)
      · intro hs
        rw [List.pairwise_append] at hs ⊢
        obtain ⟨hl, _, hly⟩ := hs
        refine ⟨hsorted hl, List.pairwise_singleton _ _, ?_⟩
        intro p hp q hq
        rw [List.mem_singleton] at hq
        subst hq
        rcases List.mem_append.1 (hperm.mem_iff.1 hp) with h | h
        · exact hly p h q (by simp)
        · rw [List.mem_singleton] at h
          subst h
          exact hasymm _ _ hxy
    · refine ⟨l ++ [y] ++ [x], ?_, List.Perm.refl _, ?_⟩
      · simp [insertionSortInner, hLess, hxy]
      · intro hs
        rw [List.pairwise_append]
        refine ⟨hs, List.pairwise_singleton _ _, ?_⟩
        intro p hp q hq
        rw [List.mem_singleton] at hq
        subst hq
        have hyx : less q y = false := by simpa using hxy
        rcases List.mem_append.1 hp with h | h
        · have hpy : less y p = false := (List.pairwise_append.1 hs).2.2 p h y (by simp)
          exact htrans p y q hpy hyx
        · rw [List.mem_singleton] at h
          subst h
          exact hyx

/-- The outer loop from a sorted first part `l` over what is left: a sorted
permutation. -/
theorem insertionSortOuter_spec {α : Type} (I : Interface (List α)) (less : α → α → Bool)
    (hLess : ∀ (l : List α) (y x : α) (r : List α),
      I.Less (l ++ y :: x :: r) (l.length + 1) l.length = less x y)
    (hSwap : ∀ (l : List α) (y x : α) (r : List α),
      I.Swap (l ++ y :: x :: r) (l.length + 1) l.length = l ++ x :: y :: r)
    (hasymm : ∀ x y, less x y = true → less y x = false)
    (htrans : ∀ x y z, less y x = false → less z y = false → less z x = false)
    (rest : List α) :
    ∀ (l : List α) (b : Nat), b = l.length + rest.length →
      l.Pairwise (fun p q => less q p = false) →
      (insertionSortOuter I 0 b rest.length l.length (l ++ rest)).Perm (l ++ rest) ∧
      (insertionSortOuter I 0 b rest.length l.length (l ++ rest)).Pairwise
        (fun p q => less q p = false) := by
  induction rest with
  | nil =>
    intro l b _ hs
    simp only [List.length_nil, insertionSortOuter, List.append_nil]
    exact ⟨List.Perm.refl _, hs⟩
  | cons x r ih =>
    intro l b hb hs
    obtain ⟨l1, hrun, hperm, hsorted⟩ :=
      insertionSortInner_spec I less hLess hSwap hasymm htrans l x r
    have hl1 : l1.length = l.length + 1 := by
      rw [hperm.length_eq]
      simp
    have hlt : l.length < b := by
      rw [hb]
      simp
    have hb1 : b = l1.length + r.length := by
      rw [hb, hl1]
      simp
      omega
    simp only [List.length_cons, insertionSortOuter, hlt, if_true, hrun]
    rw [← hl1]
    obtain ⟨hp, hso⟩ := ih l1 b hb1 (hsorted hs)
    refine ⟨hp.trans ?_, hso⟩
    have : (l ++ [x]) ++ r = l ++ x :: r := by simp
    rw [← this]
    exact hperm.append_right r

/-- The model of `sort.Sort` on a slice whose `Len`, `Less` and `Swap` are
those of the elements under a comparison `less`: the result is a permutation of
the slice in which no element is less than an earlier one. -/
theorem goSort_spec {α : Type} (I : Interface (List α)) (less : α → α → Bool)
    (hLen : ∀ data : List α, I.Len data = data.length)
    (hLess : ∀ (l : List α) (y x : α) (r : List α),
      I.Less (l ++ y :: x :: r) (l.length + 1) l.length = less x y)
    (hSwap : ∀ (l : List α) (y x : α) (r : List α),
      I.Swap (l ++ y :: x :: r) (l.length + 1) l.length = l ++ x :: y :: r)
    (hasymm : ∀ x y, less x y = true → less y x = false)
    (htrans : ∀ x y z, less y x = false → less z y = false → less z x = false)
    (data : List α) :
    (goSort I data).Perm data ∧ (goSort I data).Pairwise (fun p q => less q p = false) := by
  unfold goSort insertionSort
  rw [hLen]
  cases data with
  | nil => simp [insertionSortOuter]
  | cons x r =>
    have h := insertionSortOuter_spec I less hLess hSwap hasymm htrans r [x] (r.length + 1)
      (by simp; omega) (List.pairwise_singleton _ _)
    simpa using h

/-! ## `byNode` and `sort.StringSlice` as list interfaces -/

theorem byNode.Less_eq (n : List NodeInfo) (i j : Nat) (a b : NodeInfo)
    (hi : n[i]? = some a) (hj : n[j]? = some b) : byNode.Less n i j = nodeLess a b := by
  simp [byNode.Less, hi, hj, nodeLess]

theorem byNode.Less_adjacent (l : List NodeInfo) (y x : NodeInfo) (r : List NodeInfo) :
    byNode.Less (l ++ y :: x :: r) (l.length + 1) l.length = nodeLess x y := by
  apply byNode.Less_eq
  · rw [List.getElem?_append_right (by omega)]
    simp
  · rw [List.getElem?_append_right (by omega)]
    simp

theorem byNode.Swap_adjacent (l : List NodeInfo) (y x : NodeInfo) (r : List NodeInfo) :
    byNode.Swap (l ++ y :: x :: r) (l.length + 1) l.length = l ++ x :: y :: r := by
  have h1 : (l ++ y :: x :: r)[l.length + 1]? = some x := by
    rw [List.getElem?_append_right (by omega)]
    simp
  have h2 : (l ++ y :: x :: r)[l.length]? = some y := by
    rw [List.getElem?_append_right (by omega)]
    simp
  simp [byNode.Swap, h1, h2, List.set_append]

theorem StringSlice.Less_neighbours (l : List String) (y x : String) (r : List String) :
    StringSlice.Less (l ++ y :: x :: r) (l.length + 1) l.length = stringLess x y := by
  have h1 : (l ++ y :: x :: r)[l.length + 1]? = some x := by
    rw [List.getElem?_append_right (by omega)]
    simp
  have h2 : (l ++ y :: x :: r)[l.length]? = some y := by
    rw [List.getElem?_append_right (by omega)]
    simp
  simp [StringSlice, h1, h2]

theorem StringSlice.Swap_neighbours (l : List String) (y x : String) (r : List String) :
    StringSlice.Swap (l ++ y :: x :: r) (l.length + 1) l.length = l ++ x :: y :: r := by
  have h1 : (l ++ y :: x :: r)[l.length + 1]? = some x := by
    rw [List.getElem?_append_right (by omega)]
    simp
  have h2 : (l ++ y :: x :: r)[l.length]? = some y := by
    rw [List.getElem?_append_right (by omega)]
    simp
  simp [StringSlice, h1, h2, List.set_append]

/-- The result of `sortedNodes` is a permutation of its input in which no node
is less than an earlier one. -/
theorem sortedNodes_spec (n : List NodeInfo) :
    (sortedNodes n).Perm n ∧ (sortedNodes n).Pairwise (fun p q => nodeLess q p = false) :=
  goSort_spec byNode nodeLess (fun _ => rfl) byNode.Less_adjacent byNode.Swap_adjacent
    nodeLess_asymm nodeLess_le_trans n

/-- The result of `sortedStrings` is a permutation of its input in which no
string is less than an earlier one. -/
theorem sortedStrings_spec (s : List String) :
    (sortedStrings s).Perm s ∧ (sortedStrings s).Pairwise (fun p q => stringLess q p = false) :=
  goSort_spec StringSlice stringLess (fun _ => rfl) StringSlice.Less_neighbours
    StringSlice.Swap_neighbours stringLess_asymm stringLess_le_trans s

/-! ## C11: `sortedNodes` -/

/-- C11: for every list of NodeInfo, `sortedNodes` returns a permutation of its
input (same records with the same multiplicities, same length) that is
ascending by (BroadcastAddress, TcpPort): for all positions `i < j` of the
result, the node at `j` is not `Less` than the node at `i`. -/
theorem sortedNodes_ascending_permutation (n : List NodeInfo) :
    (sortedNodes n).Perm n ∧
    (sortedNodes n).length = n.length ∧
    (∀ x : NodeInfo, (sortedNodes n).count x = n.count x) ∧
    ∀ i j : Nat, i < j → j < (sortedNodes n).length →
      byNode.Less (sortedNodes n) j i = false := by
  obtain ⟨hperm, hsorted⟩ := sortedNodes_spec n
  refine ⟨hperm, hperm.length_eq, fun x => hperm.count_eq x, ?_⟩
  intro i j hij hj
  have hi : i < (sortedNodes n).length := Nat.lt_trans hij hj
  rw [byNode.Less_eq (sortedNodes n) j i ((sortedNodes n)[j]) ((sortedNodes n)[i])
    (List.getElem?_eq_getElem hj) (List.getElem?_eq_getElem hi)]
  exact (List.pairwise_iff_getElem.1 hsorted) i j hi hj hij

/-! ## C15: `sortedStrings` -/

/-- C15: for every list of strings, `sortedStrings` returns a permutation of
its input (same strings with the same multiplicities, duplicates kept, same
length) that is in ascending lexicographic order: no string of the result is
less than an earlier one. -/
theorem sortedStrings_ascending_permutation (s : List String) :
    (sortedStrings s).Perm s ∧
    (sortedStrings s).length = s.length ∧
    (∀ x : String, (sortedStrings s).count x = s.count x) ∧
    (sortedStrings s).Pairwise (fun p q => stringLess q p = false) := by
  obtain ⟨hperm, hsorted⟩ := sortedStrings_spec s
  exact ⟨hperm, hperm.length_eq, fun x => hperm.count_eq x, hsorted⟩

/-! ## C18: `byNode.Less` -/

/-- C18: on a slice `n` with records `a`, `b`, `c` at the positions `i`, `j`,
`k`, `byNode.Less` is a strict order whose identity is exactly
(BroadcastAddress, TcpPort): `Less(i, i)` is false; `Less(i, j)` and
`Less(j, k)` give `Less(i, k)`; neither `Less(i, j)` nor `Less(j, i)` holds if
and only if `a` and `b` have the same BroadcastAddress and the same TcpPort,
whatever their other fields; and otherwise exactly one of the two holds. -/
theorem byNode.Less_strict_order (n : List NodeInfo) (i j k : Nat) (a b c : NodeInfo)
    (hi : n[i]? = some a) (hj : n[j]? = some b) (hk : n[k]? = some c) :
    byNode.Less n i i = false ∧
    (byNode.Less n i j = true → byNode.Less n j k = true → byNode.Less n i k = true) ∧
    ((byNode.Less n i j = false ∧ byNode.Less n j i = false) ↔
      (a.BroadcastAddress = b.BroadcastAddress ∧ a.TcpPort = b.TcpPort)) ∧
    (¬ (a.BroadcastAddress = b.BroadcastAddress ∧ a.TcpPort = b.TcpPort) →
      (byNode.Less n i j = true ∧ byNode.Less n j i = false) ∨
      (byNode.Less n i j = false ∧ byNode.Less n j i = true)) := by
  rw [byNode.Less_eq n i i a a hi hi, byNode.Less_eq n i j a b hi hj,
    byNode.Less_eq n j k b c hj hk, byNode.Less_eq n i k a c hi hk,
    byNode.Less_eq n j i b a hj hi]
  have hid : a.identity = b.identity ↔
      (a.BroadcastAddress = b.BroadcastAddress ∧ a.TcpPort = b.TcpPort) := by
    unfold NodeInfo.identity
    exact Prod.mk.injEq _ _ _ _ ▸ Iff.rfl
  refine ⟨nodeLess_irrefl a, nodeLess_trans a b c, (nodeLess_neither_iff a b).trans hid, ?_⟩
  intro hne
  cases hab : nodeLess a b with
  | true => exact Or.inl ⟨rfl, nodeLess_asymm a b hab⟩
  | false =>
    cases hba : nodeLess b a with
    | true => exact Or.inr ⟨rfl, rfl⟩
    | false => exact absurd (hid.1 ((nodeLess_neither_iff a b).1 ⟨hab, hba⟩)) hne

/-- C18 witness: on the slice of `a:1`, `a:2`, `b:0` the node `a:1` is less than
`a:2`, which is less than `b:0`, so `a:1` is less than `b:0`. -/
theorem byNode.Less_strict_order_witness :
    byNode.Less threeNodes 0 0 = false ∧
    (byNode.Less threeNodes 0 1 = true → byNode.Less threeNodes 1 2 = true →
      byNode.Less threeNodes 0 2 = true) ∧
    ((byNode.Less threeNodes 0 1 = false ∧ byNode.Less threeNodes 1 0 = false) ↔
      ((nodeAt "a" 1 "").BroadcastAddress = (nodeAt "a" 2 "").BroadcastAddress ∧
        (nodeAt "a" 1 "").TcpPort = (nodeAt "a" 2 "").TcpPort)) ∧
    (¬ ((nodeAt "a" 1 "").BroadcastAddress = (nodeAt "a" 2 "").BroadcastAddress ∧
        (nodeAt "a" 1 "").TcpPort = (nodeAt "a" 2 "").TcpPort) →
      (byNode.Less threeNodes 0 1 = true ∧ byNode.Less threeNodes 1 0 = false) ∨
      (byNode.Less threeNodes 0 1 = false ∧ byNode.Less threeNodes 1 0 = true)) :=
  byNode.Less_strict_order threeNodes 0 1 2 (nodeAt "a" 1 "") (nodeAt "a" 2 "")
    (nodeAt "b" 0 "") rfl rfl rfl

/-! ## C20: the order of `sortedNodes` depends on the identities only -/

theorem nodeLess_eq_identityLess (a b : NodeInfo) :
    nodeLess a b = identityLess a.identity b.identity := rfl

theorem identityLess_antisymm (p q : String × Int) (h1 : identityLess q p = false)
    (h2 : identityLess p q = false) : p = q := by
  have h := (nodeLess_neither_iff (nodeAt p.1 p.2 "") (nodeAt q.1 q.2 "")).1 ⟨h2, h1⟩
  exact h

/-- Two lists of nodes with the same records, each with no node less than an
earlier one, show the same identities position by position. -/
theorem identities_eq_of_sorted_perm (s1 s2 : List NodeInfo) (hperm : s1.Perm s2)
    (h1 : s1.Pairwise (fun p q => nodeLess q p = false))
    (h2 : s2.Pairwise (fun p q => nodeLess q p = false)) :
    s1.map NodeInfo.identity = s2.map NodeInfo.identity := by
  have ha : IsAntisymm (String × Int) (fun p q => identityLess q p = false) :=
    ⟨fun p q hpq hqp => identityLess_antisymm p q hpq hqp⟩
  have hs1 : (s1.map NodeInfo.identity).Pairwise (fun p q => identityLess q p = false) :=
    List.pairwise_map.2 h1
  have hs2 : (s2.map NodeInfo.identity).Pairwise (fun p q => identityLess q p = false) :=
    List.pairwise_map.2 h2
  exact @List.eq_of_perm_of_sorted _ _ ha _ _ (hperm.map _) hs1 hs2

/-- A list of nodes with distinct identities and no node less than an earlier
one is strictly ascending. -/
theorem strictly_sorted_of_nodup (s : List NodeInfo)
    (h : s.Pairwise (fun p q => nodeLess q p = false))
    (hn : (s.map NodeInfo.identity).Nodup) :
    s.Pairwise (fun p q => nodeLess p q = true) := by
  have hne : s.Pairwise (fun p q => p.identity ≠ q.identity) := List.pairwise_map.1 hn
  refine (h.and hne).imp ?_
  intro p q hpq
  cases hlt : nodeLess p q with
  | true => rfl
  | false => exact absurd ((nodeLess_neither_iff p q).1 ⟨hlt, hpq.1⟩) hpq.2

/-- C20: for any two lists of NodeInfo that are permutations of each other, the
two results of `sortedNodes` have the same sequence of
(BroadcastAddress, TcpPort) pairs position by position; and when all the
identities in the list are distinct the two results are equal as lists. -/
theorem sortedNodes_deterministic (a b : List NodeInfo) (h : a.Perm b) :
    (sortedNodes a).map NodeInfo.identity = (sortedNodes b).map NodeInfo.identity ∧
    ((a.map NodeInfo.identity).Nodup → sortedNodes a = sortedNodes b) := by
  obtain ⟨hpa, hsa⟩ := sortedNodes_spec a
  obtain ⟨hpb, hsb⟩ := sortedNodes_spec b
  have hperm : (sortedNodes a).Perm (sortedNodes b) := (hpa.trans h).trans hpb.symm
  refine ⟨identities_eq_of_sorted_perm _ _ hperm hsa hsb, ?_⟩
  intro hn
  have hna : ((sortedNodes a).map NodeInfo.identity).Nodup :=
    ((hpa.map NodeInfo.identity).nodup_iff).2 hn
  have hnb : ((sortedNodes b).map NodeInfo.identity).Nodup :=
    ((hperm.map NodeInfo.identity).nodup_iff).1 hna
  have ha : IsAntisymm NodeInfo (fun p q => nodeLess p q = true) :=
    ⟨fun p q hpq hqp => by rw [nodeLess_asymm p q hpq] at hqp; exact absurd hqp (by decide)⟩
  exact @List.eq_of_perm_of_sorted _ _ ha _ _ hperm
    (strictly_sorted_of_nodup _ hsa hna) (strictly_sorted_of_nodup _ hsb hnb)

/-- C20 witness: the nodes `b:1` and `a:2`, given in either order, are returned
as `a:2`, `b:1`. -/
theorem sortedNodes_deterministic_witness :
    (sortedNodes twoNodes).map NodeInfo.identity =
      (sortedNodes twoNodes.reverse).map NodeInfo.identity ∧
    sortedNodes twoNodes = sortedNodes twoNodes.reverse ∧
    sortedNodes twoNodes = [nodeAt "a" 2 "y", nodeAt "b" 1 "x"] :=
  have h := sortedNodes_deterministic twoNodes twoNodes.reverse (by decide)
  ⟨h.1, h.2 (by decide), by decide⟩

/-! ## C12: `Servers.Resolve` -/

/-- C12: `Servers.Resolve` fails if and only if its context is non-nil and
already done; in that case it returns no results (nil) together with the
context's error; otherwise (nil context, or context not done) it returns a nil
error and a list equal element for element to the fixed list, nil when the
fixed list is empty. The fixed list is an argument that the call only reads. -/
theorem Servers.Resolve_contract (r : Servers) (ctx : Option Context) :
    ((Servers.Resolve r ctx).2 ≠ none ↔ ∃ c, ctx = some c ∧ c.Done = true) ∧
    (∀ c, ctx = some c → c.Done = true →
      Servers.Resolve r ctx = (none, c.Err) ∧ c.Err ≠ none) ∧
    ((ctx = none ∨ ∃ c, ctx = some c ∧ c.Done = false) →
      (Servers.Resolve r ctx).2 = none ∧
      elems (Servers.Resolve r ctx).1 = elems r ∧
      (len r = 0 → (Servers.Resolve r ctx).1 = none)) := by
  cases ctx with
  | none =>
    refine ⟨by simp [Servers.Resolve], by simp, ?_⟩
    intro _
    refine ⟨rfl, elems_copy r, ?_⟩
    intro h0
    simp [Servers.Resolve, Servers.copy, h0]
  | some c =>
    cases c with
    | active =>
      refine ⟨by simp [Servers.Resolve, Context.Done], by simp [Context.Done], ?_⟩
      intro _
      refine ⟨rfl, elems_copy r, ?_⟩
      intro h0
      simp [Servers.Resolve, Context.Done, Servers.copy, h0]
    | canceled =>
      refine ⟨by simp [Servers.Resolve, Context.Done, Context.Err], ?_, by simp [Context.Done]⟩
      intro c hc _
      cases hc
      simp [Servers.Resolve, Context.Done, Context.Err]
    | deadlineExceeded =>
      refine ⟨by simp [Servers.Resolve, Context.Done, Context.Err], ?_, by simp [Context.Done]⟩
      intro c hc _
      cases hc
      simp [Servers.Resolve, Context.Done, Context.Err]

/-! ## C13: a cancellation is not cached -/

/-- One call of `Resolve` keeps the cached error different from
`context.Canceled`. -/
theorem CachedResolver.Resolve_error_ne_canceled (r : CachedResolver) (now : Int)
    (rslv : Resolver) (ctx : Option Context) (h : r.error ≠ some GoErr.Canceled) :
    (r.Resolve now rslv ctx).next.error ≠ some GoErr.Canceled := by
  by_cases hexp : now < r.exptime
  · rw [CachedResolver.Resolve_hit r now rslv ctx hexp]
    exact h
  · by_cases hc : (rslv ctx).2 = some GoErr.Canceled
    · simp [CachedResolver.Resolve, CachedResolver.get, hexp, hc]
    · rw [CachedResolver.Resolve_miss r now rslv ctx hexp hc]
      exact hc

theorem CachedResolver.run_error_ne_canceled (calls : List (Int × Resolver × Option Context)) :
    ∀ r : CachedResolver, r.error ≠ some GoErr.Canceled →
      ∀ o ∈ r.run calls, o.next.error ≠ some GoErr.Canceled := by
  induction calls with
  | nil => intro r _ o ho; simp [CachedResolver.run] at ho
  | cons c rest ih =>
    intro r hr o ho
    obtain ⟨now, rslv, ctx⟩ := c
    simp only [CachedResolver.run, List.mem_cons] at ho
    have hstep := CachedResolver.Resolve_error_ne_canceled r now rslv ctx hr
    rcases ho with ho | ho
    · rw [ho]
      exact hstep
    · exact ih _ hstep o ho

/-- C13: if `CachedResolver.Resolve`, at a clock reading `now` that is not
before the zero time, finds the cache expired and the wrapped resolver returns
the error `context.Canceled`, then the call returns that error with the
results the wrapped resolver gave, the cache is reset to the empty state
(servers nil, error nil, zero expiry) instead of storing the cancellation, and
the next `Resolve` at any later time calls the wrapped resolver again.
Consequently, in every state reached by a run of calls from a fresh
CachedResolver, the cached error is never `context.Canceled`. -/
theorem CachedResolver.canceled_not_cached (r : CachedResolver) (now : Int) (rslv : Resolver)
    (ctx : Option Context) (h0 : 0 ≤ now) (hexp : ¬ now < r.exptime)
    (hc : (rslv ctx).2 = some GoErr.Canceled) :
    r.Resolve now rslv ctx =
      { res := (rslv ctx).1, err := some GoErr.Canceled,
        next := { r with servers := none, error := none, exptime := 0 },
        invoked := true } ∧
    (∀ (t : Int) (rslv1 : Resolver) (ctx1 : Option Context), now ≤ t →
      ((r.Resolve now rslv ctx).next.Resolve t rslv1 ctx1).invoked = true) ∧
    (∀ (timeout : Int) (calls : List (Int × Resolver × Option Context)),
      ∀ o ∈ CachedResolver.run
          { Timeout := timeout, exptime := 0, servers := none, error := none } calls,
        o.next.error ≠ some GoErr.Canceled) := by
  have hstep : r.Resolve now rslv ctx =
      { res := (rslv ctx).1, err := some GoErr.Canceled,
        next := { r with servers := none, error := none, exptime := 0 },
        invoked := true } := by
    simp [CachedResolver.Resolve, CachedResolver.get, hexp, hc]
  refine ⟨hstep, ?_, ?_⟩
  · intro t rslv1 ctx1 ht
    rw [hstep]
    apply CachedResolver.Resolve_miss_invoked
    show ¬ t < 0
    omega
  · intro timeout calls
    exact CachedResolver.run_error_ne_canceled calls _ (by simp)

/-- C13 witness: a fresh cache called at time 100 with a canceled context over
a static resolver gets `context.Canceled`, stays empty, and calls the static
resolver again at time 101. -/
theorem CachedResolver.canceled_not_cached_witness :
    freshCache.Resolve 100 staticA (some Context.canceled) =
      { res := none, err := some GoErr.Canceled,
        next := { Timeout := 10, exptime := 0, servers := none, error := none },
        invoked := true } ∧
    ((freshCache.Resolve 100 staticA (some Context.canceled)).next.Resolve 101 staticA
      none).invoked = true :=
  have h := CachedResolver.canceled_not_cached freshCache 100 staticA (some Context.canceled)
    (by decide) (by decide) (by decide)
  ⟨h.1, h.2.1 101 staticA none (by decide)⟩

/-! ## C14: no child, one child -/

/-- C14: a MultiResolver built from zero children resolves to an empty result
(the nil slice) with a nil error for every context; a MultiResolver built from
exactly one child returns, for every context, exactly the (addresses, error)
pair that the child's `Resolve` returns. Neither reads the channel. -/
theorem MultiResolver_zero_or_one (appendErr : GoError → GoError → GoError)
    (ctx : Option Context) (reschan : List result) :
    (MultiResolver []).Resolve appendErr ctx reschan = some (none, none) ∧
    ∀ r : Resolver, (MultiResolver [r]).Resolve appendErr ctx reschan = some (r ctx) :=
  ⟨rfl, fun _ => rfl⟩

/-! ## C16 and C19: the requests of `ConsulResolver` -/

theorem stringsIndex_isSome_iff (s sub : List Char) :
    (stringsIndex s sub).isSome = true ↔ sub <:+: s := by
  induction s with
  | nil =>
    cases sub with
    | nil => simp [stringsIndex]
    | cons c cs => simp [stringsIndex]
  | cons x xs ih =>
    rw [List.infix_cons_iff, ← ih, ← List.isPrefixOf_iff_prefix]
    by_cases hp : sub.isPrefixOf (x :: xs) = true
    · simp [stringsIndex, hp]
    · simp [stringsIndex, hp]

/-- The catalog address, case by case. -/
theorem ConsulResolver.address_eq (r : ConsulResolver) :
    r.address =
      if r.Address = "" then "http://localhost:8500"
      else if "://".data <:+: r.Address.data then r.Address
      else "http://" ++ r.Address := by
  unfold ConsulResolver.address
  by_cases h : r.Address = ""
  · rw [h]
    decide
  · have hl : r.Address.length ≠ 0 := by
      intro h0
      apply h
      apply String.ext
      exact List.length_eq_zero.1 h0
    simp only [hl, h, if_false]
    by_cases hi : "://".data <:+: r.Address.data
    · have := (stringsIndex_isSome_iff r.Address.data "://".data).2 hi
      simp only [hi, if_true]
      cases hs : stringsIndex r.Address.data "://".data with
      | none => rw [hs] at this; exact absurd this (by decide)
      | some k => rfl
    · have hn : ¬ (stringsIndex r.Address.data "://".data).isSome = true :=
        fun h1 => hi ((stringsIndex_isSome_iff r.Address.data "://".data).1 h1)
      simp only [hi, if_false]
      cases hs : stringsIndex r.Address.data "://".data with
      | none => rfl
      | some k => rw [hs] at hn; exact absurd rfl hn

/-- What `getConsul` does, in terms of the URL it builds and the transport it
uses. -/
theorem ConsulResolver.getConsul_eq (lib : Library) (r : ConsulResolver) (ctx : Option Context)
    (endpoint : String) :
    r.getConsul lib ctx endpoint =
      match lib.NewRequest (r.url endpoint) with
      | Except.error err => (none, some err)
      | Except.ok req =>
        match r.transport lib ctx req with
        | Except.error err => (none, some err)
        | Except.ok res =>
          if res.StatusCode = 200 then (some res.Body, none)
          else if res.StatusCode = 404 then (none, none)
          else (none, some (consulStatusError endpoint r.address res)) := by
  unfold ConsulResolver.getConsul ConsulResolver.url ConsulResolver.transport
  cases r.Transport <;> rfl

theorem ConsulResolver.service_eq (r : ConsulResolver) :
    r.service = if r.Service = "" then "nsqlookupd" else r.Service := by
  unfold ConsulResolver.service
  by_cases h : r.Service = ""
  · rw [h]
    rfl
  · have hl : r.Service.length ≠ 0 := by
      intro h0
      apply h
      apply String.ext
      exact List.length_eq_zero.1 h0
    simp only [hl, h, if_false]

/-- Two transports that answer alike the request made for an endpoint give the
same outcome of `getConsul`. -/
theorem ConsulResolver.getConsul_congr (lib : Library) (r : ConsulResolver)
    (ctx : Option Context) (endpoint : String) (t1 t2 : RoundTripper)
    (h : ∀ req, lib.NewRequest (r.url endpoint) = Except.ok req → t1 ctx req = t2 ctx req) :
    ConsulResolver.getConsul lib { r with Transport := some t1 } ctx endpoint =
      ConsulResolver.getConsul lib { r with Transport := some t2 } ctx endpoint := by
  have hu1 : ConsulResolver.url { r with Transport := some t1 } endpoint = r.url endpoint := rfl
  have hu2 : ConsulResolver.url { r with Transport := some t2 } endpoint = r.url endpoint := rfl
  have ha1 : ConsulResolver.address { r with Transport := some t1 } = r.address := rfl
  have ha2 : ConsulResolver.address { r with Transport := some t2 } = r.address := rfl
  have ht1 : ConsulResolver.transport lib { r with Transport := some t1 } = t1 := rfl
  have ht2 : ConsulResolver.transport lib { r with Transport := some t2 } = t2 := rfl
  rw [ConsulResolver.getConsul_eq, ConsulResolver.getConsul_eq, hu1, hu2, ha1, ha2, ht1, ht2]
  cases hn : lib.NewRequest (r.url endpoint) with
  | error err => rfl
  | ok req =>
    simp only []
    rw [h req hn]

/-- C16, as stated, fails: for the Service `a b` the text built for the
health-checks request is `http://localhost:8500/v1/health/checks/a b?passing`,
the one the claim gives, but the request that reaches the transport carries the
URL `http://localhost:8500/v1/health/checks/a%20b?passing` (the transport
echoes the URL it is asked for), and likewise for the catalog request. -/
theorem ConsulResolver.escaped_url_counterexample :
    spaceConsul.url spaceConsul.checksEndpoint =
      "http://localhost:8500" ++ "/v1/health/checks/" ++ "a b" ++ "?passing" ∧
    spaceConsul.getConsul echoLibrary none spaceConsul.checksEndpoint =
      (some "http://localhost:8500/v1/health/checks/a%20b?passing", none) ∧
    "http://localhost:8500/v1/health/checks/a%20b?passing" ≠
      "http://localhost:8500" ++ "/v1/health/checks/" ++ "a b" ++ "?passing" ∧
    spaceConsul.getConsul echoLibrary none spaceConsul.serviceEndpoint =
      (some "http://localhost:8500/v1/catalog/service/a%20b", none) ∧
    "http://localhost:8500/v1/catalog/service/a%20b" ≠
      "http://localhost:8500" ++ "/v1/catalog/service/" ++ "a b" := by
  decide

/-- C16 (amended): for every configured Address and Service, the two URL texts
that `ConsulResolver` gives to `http.NewRequest` are `base ++
"/v1/health/checks/" ++ service ++ "?passing"` and `base ++
"/v1/catalog/service/" ++ service`, with the same base for both, where service
is `nsqlookupd` when Service is empty and Service otherwise, and base is
`http://localhost:8500` when Address is empty, Address itself when it contains
`://`, and `http://` followed by Address otherwise. The URL requested is the
one of the request that `http.NewRequest` makes of the text: `getConsul` hands
that request to the transport and classifies its answer, and requests nothing
when `http.NewRequest` fails. When both requests are made and answered 200
with bodies that decode, `Resolve` returns the endpoints computed from these
two answers; and `Resolve` looks at the transport at these two requests only:
two transports that answer them alike give the same result. -/
theorem ConsulResolver.request_urls (lib : Library) (r : ConsulResolver)
    (ctx : Option Context) :
    r.url r.checksEndpoint =
      (if r.Address = "" then "http://localhost:8500"
        else if "://".data <:+: r.Address.data then r.Address
        else "http://" ++ r.Address) ++ "/v1/health/checks/" ++
      (if r.Service = "" then "nsqlookupd" else r.Service) ++ "?passing" ∧
    r.url r.serviceEndpoint =
      (if r.Address = "" then "http://localhost:8500"
        else if "://".data <:+: r.Address.data then r.Address
        else "http://" ++ r.Address) ++ "/v1/catalog/service/" ++
      (if r.Service = "" then "nsqlookupd" else r.Service) ∧
    (∀ endpoint req : String, lib.NewRequest (r.url endpoint) = Except.ok req →
      r.getConsul lib ctx endpoint =
        match r.transport lib ctx req with
        | Except.error err => (none, some err)
        | Except.ok res =>
          if res.StatusCode = 200 then (some res.Body, none)
          else if res.StatusCode = 404 then (none, none)
          else (none, some (consulStatusError endpoint r.address res))) ∧
    (∀ (endpoint : String) (err : GoErr),
      lib.NewRequest (r.url endpoint) = Except.error err →
      r.getConsul lib ctx endpoint = (none, some err)) ∧
    (∀ (req1 req2 : String) (res1 res2 : Response) (checks : List CheckResult)
        (services : List ServiceResult),
      lib.NewRequest (r.url r.checksEndpoint) = Except.ok req1 →
      lib.NewRequest (r.url r.serviceEndpoint) = Except.ok req2 →
      r.transport lib ctx req1 = Except.ok res1 → res1.StatusCode = 200 →
      jsonUnmarshal lib.decodeChecks (some res1.Body) = Except.ok checks →
      r.transport lib ctx req2 = Except.ok res2 → res2.StatusCode = 200 →
      jsonUnmarshal lib.decodeServices (some res2.Body) = Except.ok services →
      r.Resolve lib ctx =
        (some ((services.filter
          (fun s => decide (s.Node ∈ checks.map (fun c => c.Node)))).map
            ConsulResolver.endpoint), none)) ∧
    (∀ t1 t2 : RoundTripper,
      (∀ req, lib.NewRequest (r.url r.checksEndpoint) = Except.ok req →
        t1 ctx req = t2 ctx req) →
      (∀ req, lib.NewRequest (r.url r.serviceEndpoint) = Except.ok req →
        t1 ctx req = t2 ctx req) →
      ConsulResolver.Resolve lib { r with Transport := some t1 } ctx =
        ConsulResolver.Resolve lib { r with Transport := some t2 } ctx) := by
  refine ⟨?_, ?_, ?_, ?_, ?_, ?_⟩
  · rw [← ConsulResolver.address_eq, ← ConsulResolver.service_eq]
    unfold ConsulResolver.url ConsulResolver.checksEndpoint
    apply String.ext
    simp [String.data_append]
  · rw [← ConsulResolver.address_eq, ← ConsulResolver.service_eq]
    unfold ConsulResolver.url ConsulResolver.serviceEndpoint
    apply String.ext
    simp [String.data_append]
  · intro endpoint req hreq
    rw [ConsulResolver.getConsul_eq, hreq]
  · intro endpoint err hreq
    rw [ConsulResolver.getConsul_eq, hreq]
  · intro req1 req2 res1 res2 checks services hn1 hn2 ht1 hs1 hd1 ht2 hs2 hd2
    have g1 : r.getConsul lib ctx r.checksEndpoint = (some res1.Body, none) := by
      rw [ConsulResolver.getConsul_eq, hn1]
      simp only [ht1, hs1, if_true]
    have g2 : r.getConsul lib ctx r.serviceEndpoint = (some res2.Body, none) := by
      rw [ConsulResolver.getConsul_eq, hn2]
      simp only [ht2, hs2, if_true]
    unfold ConsulResolver.Resolve
    simp only [g1, g2, hd1, hd2, ConsulResolver.loop_eq, List.nil_append]
  · intro t1 t2 h1 h2
    have c1 := ConsulResolver.getConsul_congr lib r ctx r.checksEndpoint t1 t2 h1
    have c2 := ConsulResolver.getConsul_congr lib r ctx r.serviceEndpoint t1 t2 h2
    have hc1 : ConsulResolver.checksEndpoint { r with Transport := some t1 } =
        r.checksEndpoint := rfl
    have hc2 : ConsulResolver.checksEndpoint { r with Transport := some t2 } =
        r.checksEndpoint := rfl
    have hs1 : ConsulResolver.serviceEndpoint { r with Transport := some t1 } =
        r.serviceEndpoint := rfl
    have hs2 : ConsulResolver.serviceEndpoint { r with Transport := some t2 } =
        r.serviceEndpoint := rfl
    unfold ConsulResolver.Resolve
    rw [hc1, hc2, hs1, hs2, c1, c2]

/-- C16 witness: with every field empty the two URL texts are those of the
service `nsqlookupd` on `http://localhost:8500`, and with Address `consul:8500`
and Service `lookup` those of `lookup` on `http://consul:8500`; with a library
that makes of these texts requests at the same URLs, the health-checks request
reaches the transport, whose body comes back. -/
theorem ConsulResolver.request_urls_witness :
    defaultConsul.url defaultConsul.checksEndpoint =
      "http://localhost:8500/v1/health/checks/nsqlookupd?passing" ∧
    defaultConsul.url defaultConsul.serviceEndpoint =
      "http://localhost:8500/v1/catalog/service/nsqlookupd" ∧
    namedConsul.url namedConsul.checksEndpoint =
      "http://consul:8500/v1/health/checks/lookup?passing" ∧
    namedConsul.url namedConsul.serviceEndpoint =
      "http://consul:8500/v1/catalog/service/lookup" ∧
    defaultConsul.getConsul catalogLibrary none defaultConsul.checksEndpoint =
      (some checksJSON, none) :=
  ⟨(ConsulResolver.request_urls catalogLibrary defaultConsul none).1.trans (by decide),
   (ConsulResolver.request_urls catalogLibrary defaultConsul none).2.1.trans (by decide),
   (ConsulResolver.request_urls catalogLibrary namedConsul none).1.trans (by decide),
   (ConsulResolver.request_urls catalogLibrary namedConsul none).2.1.trans (by decide),
   ((ConsulResolver.request_urls catalogLibrary defaultConsul none).2.2.1
      defaultConsul.checksEndpoint
      "http://localhost:8500/v1/health/checks/nsqlookupd?passing" rfl).trans (by decide)⟩

/-- C19: when the request is built and the transport returns a response,
`getConsul` classifies it by its status code alone: for status 200 it returns
the response body and a nil error; for status 404 it returns no body and a nil
error; for every other status, the other 2xx codes included, it returns no body
and a non-nil error whose text holds the endpoint, the catalog address, the
status code and the status text. -/
theorem ConsulResolver.getConsul_status (lib : Library) (r : ConsulResolver)
    (ctx : Option Context) (endpoint : String) (req : String) (res : Response)
    (hreq : lib.NewRequest (r.url endpoint) = Except.ok req)
    (hres : r.transport lib ctx req = Except.ok res) :
    (res.StatusCode = 200 → r.getConsul lib ctx endpoint = (some res.Body, none)) ∧
    (res.StatusCode = 404 → r.getConsul lib ctx endpoint = (none, none)) ∧
    (res.StatusCode ≠ 200 → res.StatusCode ≠ 404 →
      ∃ text : String,
        r.getConsul lib ctx endpoint = (none, some (GoErr.errorf text)) ∧
        text = "error looking up " ++ endpoint ++ " on consul agent at " ++ r.address ++ ": " ++
          Itoa res.StatusCode ++ " " ++ res.Status ∧
        endpoint.data <:+: text.data ∧
        r.address.data <:+: text.data ∧
        (Itoa res.StatusCode).data <:+: text.data ∧
        res.Status.data <:+: text.data) := by
  rw [ConsulResolver.getConsul_eq, hreq]
  simp only [hres]
  refine ⟨?_, ?_, ?_⟩
  · intro h
    simp [h]
  · intro h
    simp [h]
  · intro h1 h2
    refine ⟨_, by simp only [h1, h2, if_false, consulStatusError], rfl, ?_, ?_, ?_, ?_⟩
    · exact ⟨"error looking up ".data,
        (" on consul agent at " ++ r.address ++ ": " ++ Itoa res.StatusCode ++ " " ++
          res.Status).data, by simp [String.data_append]⟩
    · exact ⟨("error looking up " ++ endpoint ++ " on consul agent at ").data,
        (": " ++ Itoa res.StatusCode ++ " " ++ res.Status).data, by simp [String.data_append]⟩
    · exact ⟨("error looking up " ++ endpoint ++ " on consul agent at " ++ r.address ++
          ": ").data, (" " ++ res.Status).data, by simp [String.data_append]⟩
    · exact ⟨("error looking up " ++ endpoint ++ " on consul agent at " ++ r.address ++ ": " ++
          Itoa res.StatusCode ++ " ").data, [], by simp [String.data_append]⟩

/-- C19 witness: the status 204, a 2xx code other than 200, is an error for
`getConsul`. -/
theorem ConsulResolver.getConsul_status_witness :
    ∃ text : String,
      defaultConsul.getConsul (statusLibrary 204 "204 No Content" (fun _ => Except.ok [])
          (fun _ => Except.ok [])) none "v1/catalog/service/nsqlookupd" =
        (none, some (GoErr.errorf text)) ∧
      text = "error looking up v1/catalog/service/nsqlookupd on consul agent at " ++
        "http://localhost:8500: 204 204 No Content" :=
  have h := (ConsulResolver.getConsul_status
    (statusLibrary 204 "204 No Content" (fun _ => Except.ok []) (fun _ => Except.ok []))
    defaultConsul none "v1/catalog/service/nsqlookupd"
    "http://localhost:8500/v1/catalog/service/nsqlookupd"
    { StatusCode := 204, Status := "204 No Content", Body := "" } rfl rfl).2.2
    (by decide) (by decide)
  h.elim (fun text ht => ⟨text, ht.1, ht.2.1.trans (by decide)⟩)

/-! ## C17: registering a node twice -/

theorem upsertNode_identities (l : List NodeInfo) (node : NodeInfo) :
    (upsertNode l node).map NodeInfo.identity =
      if node.identity ∈ l.map NodeInfo.identity then l.map NodeInfo.identity
      else l.map NodeInfo.identity ++ [node.identity] := by
  induction l with
  | nil => simp [upsertNode]
  | cons m rest ih =>
    by_cases hm : m.identity = node.identity
    · simp [upsertNode, hm]
    · have hm1 : ¬ node.identity = m.identity := fun h => hm h.symm
      by_cases hr : node.identity ∈ rest.map NodeInfo.identity
      · rw [if_pos hr] at ih
        have hr1 : node.identity ∈ (m :: rest).map NodeInfo.identity := by
          rw [List.map_cons]
          exact List.mem_cons_of_mem _ hr
        rw [if_pos hr1]
        simp only [upsertNode, hm, if_false, List.map_cons, ih]
      · rw [if_neg hr] at ih
        have hr1 : ¬ node.identity ∈ (m :: rest).map NodeInfo.identity := by
          rw [List.map_cons, List.mem_cons]
          rintro (h | h)
          · exact hm1 h
          · exact hr h
        rw [if_neg hr1]
        simp only [upsertNode, hm, if_false, List.map_cons, ih, List.cons_append]

theorem upsertNode_mem (l : List NodeInfo) (node : NodeInfo) : node ∈ upsertNode l node := by
  induction l with
  | nil => simp [upsertNode]
  | cons m rest ih =>
    by_cases hm : m.identity = node.identity
    · simp [upsertNode, hm]
    · simp [upsertNode, hm, ih]

theorem upsertNode_nodup (l : List NodeInfo) (node : NodeInfo)
    (h : (l.map NodeInfo.identity).Nodup) :
    ((upsertNode l node).map NodeInfo.identity).Nodup := by
  rw [upsertNode_identities]
  by_cases hr : node.identity ∈ l.map NodeInfo.identity
  · rw [if_pos hr]
    exact h
  · rw [if_neg hr]
    rw [List.nodup_append]
    refine ⟨h, List.nodup_singleton _, ?_⟩
    intro a ha hb
    rw [List.mem_singleton] at hb
    exact hr (hb ▸ ha)

/-- Registering a node that already has a record of its own changes nothing. -/
theorem upsertNode_idem (l : List NodeInfo) (node : NodeInfo) :
    upsertNode (upsertNode l node) node = upsertNode l node := by
  induction l with
  | nil => simp [upsertNode]
  | cons m rest ih =>
    by_cases hm : m.identity = node.identity
    · simp [upsertNode, hm]
    · simp [upsertNode, hm, ih]

/-- In every state of the registry the identities are distinct. -/
theorem Registry.step_nodup (s : Registry) (call : RegistryCall)
    (h : (s.nodes.map NodeInfo.identity).Nodup) :
    ((s.step call).nodes.map NodeInfo.identity).Nodup := by
  cases call with
  | register node => exact upsertNode_nodup s.nodes node h
  | unregister node =>
    exact (List.Nodup.sublist ((List.filter_sublist _).map NodeInfo.identity) h)

theorem Registry.foldl_nodup (calls : List RegistryCall) :
    ∀ s : Registry, (s.nodes.map NodeInfo.identity).Nodup →
      ((calls.foldl Registry.step s).nodes.map NodeInfo.identity).Nodup := by
  induction calls with
  | nil => intro s h; exact h
  | cons c rest ih =>
    intro s h
    exact ih (s.step c) (Registry.step_nodup s c h)

theorem Registry.after_nodup (calls : List RegistryCall) :
    ((Registry.after calls).nodes.map NodeInfo.identity).Nodup :=
  Registry.foldl_nodup calls { nodes := [] } List.nodup_nil

/-- In a list with distinct identities that holds a node, the records with the
identity of that node are that node alone. -/
theorem withIdentity_of_nodup (l : List NodeInfo) (node : NodeInfo)
    (h : (l.map NodeInfo.identity).Nodup) (hm : node ∈ l) :
    withIdentity l node = [node] := by
  induction l with
  | nil => simp at hm
  | cons m rest ih =>
    rw [List.map_cons, List.nodup_cons] at h
    obtain ⟨hnot, hrest⟩ := h
    rcases List.mem_cons.1 hm with he | hin
    · subst he
      have hnone : withIdentity rest node = [] := by
        unfold withIdentity
        rw [List.filter_eq_nil_iff]
        intro x hx hxe
        apply hnot
        have : x.identity = node.identity := by simpa using hxe
        rw [← this]
        exact List.mem_map_of_mem _ hx
      unfold withIdentity at hnone ⊢
      simp [List.filter_cons, hnone]
    · have hne : ¬ m.identity = node.identity := by
        intro he
        apply hnot
        rw [he]
        exact List.mem_map_of_mem _ hin
      unfold withIdentity at ih ⊢
      simp only [List.filter_cons, hne, decide_False, Bool.false_eq_true, if_false]
      exact ih hrest hin

theorem withIdentity_lookup (s : Registry) (node : NodeInfo)
    (h : (s.nodes.map NodeInfo.identity).Nodup) (hm : node ∈ s.nodes) :
    withIdentity s.LookupNodes node = [node] := by
  have hperm : (withIdentity s.LookupNodes node).Perm (withIdentity s.nodes node) :=
    List.Perm.filter _ (sortedNodes_spec s.nodes).1
  rw [withIdentity_of_nodup s.nodes node h hm] at hperm
  exact List.perm_singleton.1 hperm

/-- C17: for every node and every state of the registry (the state after any
sequence of RegisterNode and UnregisterNode calls), calling RegisterNode twice
with the same node leaves exactly one node with that identity in the result of
LookupNodes, the node itself; the second call changes nothing; and registering
a second record with the same identity leaves that second record alone. -/
theorem Registry.register_twice (calls : List RegistryCall) (node : NodeInfo) :
    withIdentity (((Registry.after calls).RegisterNode node).RegisterNode node).LookupNodes
      node = [node] ∧
    (withIdentity (((Registry.after calls).RegisterNode node).RegisterNode node).LookupNodes
      node).length = 1 ∧
    ((Registry.after calls).RegisterNode node).RegisterNode node =
      (Registry.after calls).RegisterNode node ∧
    ∀ node2 : NodeInfo, node2.identity = node.identity →
      withIdentity (((Registry.after calls).RegisterNode node).RegisterNode node2).LookupNodes
        node = [node2] := by
  have hn := Registry.after_nodup calls
  have h1 : ((((Registry.after calls).RegisterNode node).RegisterNode node).nodes.map
      NodeInfo.identity).Nodup :=
    upsertNode_nodup _ node (upsertNode_nodup _ node hn)
  have hone := withIdentity_lookup
    (((Registry.after calls).RegisterNode node).RegisterNode node) node h1
    (upsertNode_mem _ node)
  refine ⟨hone, by rw [hone]; rfl, ?_, ?_⟩
  · unfold Registry.RegisterNode
    simp only [upsertNode_idem]
  · intro node2 hid
    have h2 : ((((Registry.after calls).RegisterNode node).RegisterNode node2).nodes.map
        NodeInfo.identity).Nodup :=
      upsertNode_nodup _ node2 (upsertNode_nodup _ node hn)
    have htwo := withIdentity_lookup
      (((Registry.after calls).RegisterNode node).RegisterNode node2) node2 h2
      (upsertNode_mem _ node2)
    unfold withIdentity at htwo ⊢
    rw [← hid]
    exact htwo

end Nsqlookup
